import Mathlib

/-!
Verification of the grab-otp browser extension (TypeScript sources under
`src/`).  The development shallowly embeds the OTP extraction patterns
(`OTP_PATTERNS` / `extractOTP` in `src/background/background.ts` and
`src/background/background-firefox.ts`), the retrieval orchestrator
(`fetchOTPForDomain` in both variants), the Firefox delivery coordinator
(`processOTPRequest`, `copyToClipboard`, `showPopupWithResult`), the
runtime message listeners, and the content-script form-fill logic
(`otp-autofill.ts`, `otp-bridge.ts`).

Strings are modelled as `List Char`; the remote Gmail API, the DOM and
the WebExtension surfaces are modelled as explicit environments, and
side effects (storage writes, badge updates, clipboard attempts, port
messages) as an explicit effect record.
-/

namespace GrabOtp

/-! ### Character classes used by the regular expressions

JavaScript `\d`, `\w`/`\b` and `\s` (the class used inside
`[:\s]`), expressed on code points. -/

/-- JS `\d`, i.e. the characters `0`-`9`. -/
def isDigitC (c : Char) : Bool :=
  48 ≤ c.toNat && c.toNat ≤ 57

/-- JS `\w`: `[A-Za-z0-9_]`.  `\b` holds between a word and a non-word
character (or the ends of the input). -/
def isWordC (c : Char) : Bool :=
  isDigitC c || (65 ≤ c.toNat && c.toNat ≤ 90) ||
    (97 ≤ c.toNat && c.toNat ≤ 122) || c.toNat = 95

/-- JS `\s`: the WhiteSpace and LineTerminator code points. -/
def jsWhitespaceC (c : Char) : Bool :=
  (9 ≤ c.toNat && c.toNat ≤ 13) || c.toNat = 32 || c.toNat = 160 ||
    c.toNat = 5760 || (8192 ≤ c.toNat && c.toNat ≤ 8202) ||
    c.toNat = 8232 || c.toNat = 8233 || c.toNat = 8239 ||
    c.toNat = 8287 || c.toNat = 12288 || c.toNat = 65279

/-- The class `[:\s]` used between an anchor phrase and the digits. -/
def isSepC (c : Char) : Bool :=
  c.toNat = 58 || jsWhitespaceC c

/-- ASCII lower-casing, the case folding the `i` flag performs on the
letter-only anchor phrases. -/
def lowerC (c : Char) : Char :=
  if 65 ≤ c.toNat && c.toNat ≤ 90 then Char.ofNat (c.toNat + 32) else c

/-! ### The bare digit-run patterns

`/\b(\d{k})\b/g` for `k ∈ {6, 4, 8}`.  A match is a run of exactly `k`
digits whose left neighbour (or the start) and right neighbour (or the
end) are non-word characters.  The scan below tries every position; it
yields the same match list as the resume-after-match `g`-flag scan,
because a further match can never begin inside or immediately after a
matched run (every inner position has a digit, hence a word character,
on its left, which falsifies the leading `\b`). -/

/-- The boundary test against the single neighbouring character that is
not part of the matched digits (the other side of each `\b` is a digit,
i.e. a word character, so `\b` reduces to this test). -/
def boundaryB : Option Char → Bool
  | none => true
  | some c => !(isWordC c)

/-- Does `/\b\d{k}\b/` match at the head of `t`, where `p` is the
character just before `t` (`none` at the start of the input)? -/
def bareHereB (k : Nat) (p : Option Char) (t : List Char) : Bool :=
  boundaryB p && (t.take k).length == k && (t.take k).all isDigitC &&
    boundaryB (t.drop k).head?

/-- All matches of `/\b(\d{k})\b/g` in `t`, given the character `p`
preceding `t`. -/
def bareScan (k : Nat) (p : Option Char) : List Char → List (List Char)
  | [] => []
  | c :: rest =>
    (if bareHereB k p (c :: rest) then [(c :: rest).take k] else []) ++
      bareScan k (some c) rest

/-! ### The phrase-anchored patterns

`/phrase[:\s]*(\d+)/gi` for the phrases `verification code`,
`your code`, `otp`, `pin`.  A match is a case-insensitive occurrence of
the phrase, followed by a (possibly empty) run of `[:\s]` characters,
followed by a nonempty maximal digit run; backtracking into the
separator run can never rescue a failed `\d+`, since separators are not
digits.  As with the bare patterns, the try-every-position scan agrees
with the `g`-flag scan for these phrases: none of them has a
self-overlap, and no phrase letter can occur inside the separator or
digit part of a match. -/

/-- Case-insensitive match of the lowercase phrase `q` against a prefix
of `t`; returns the actually matched characters and the rest. -/
def phraseHeadMatch : List Char → List Char → Option (List Char × List Char)
  | [], t => some ([], t)
  | _ :: _, [] => none
  | q :: qs, c :: rest =>
    if lowerC c = q then
      match phraseHeadMatch qs rest with
      | some (m, r) => some (c :: m, r)
      | none => none
    else none

/-- Does `/phrase[:\s]*(\d+)/i` match at the head of `t`?  Returns the
full match (phrase, separators and digits). -/
def phraseHere (q : List Char) (t : List Char) : Option (List Char) :=
  match phraseHeadMatch q t with
  | none => none
  | some (m, r) =>
    let seps := r.takeWhile isSepC
    let r2 := r.dropWhile isSepC
    let ds := r2.takeWhile isDigitC
    if ds.isEmpty then none else some (m ++ seps ++ ds)

/-- All matches of `/phrase[:\s]*(\d+)/gi` in `t`. -/
def phraseScan (q : List Char) : List Char → List (List Char)
  | [] => []
  | c :: rest =>
    (match phraseHere q (c :: rest) with
     | some m => [m]
     | none => []) ++ phraseScan q rest

/-! ### `OTP_PATTERNS` and `extractOTP` -/

/-- One entry of the `OTP_PATTERNS` array. -/
inductive OtpPattern
  | bare (k : Nat)
  | anchored (q : List Char)
deriving DecidableEq, Repr

/-- `match` of one pattern against the text. -/
def patternMatches : OtpPattern → List Char → List (List Char)
  | .bare k, t => bareScan k none t
  | .anchored q, t => phraseScan q t

/-- The `OTP_PATTERNS` array, in declaration order
(`background.ts` lines 37-45, identical in `background-firefox.ts`). -/
def OTP_PATTERNS : List OtpPattern :=
  [.bare 6, .bare 4, .bare 8,
   .anchored (("verification code").data),
   .anchored (("your code").data),
   .anchored (("otp").data),
   .anchored (("pin").data)]

/-- The inner loop of `extractOTP`: for each match, strip the non-digit
characters (`match.replace(/\D/g, '')`) and accept the first result
whose length lies in `[4, 8]`. -/
def firstValidCode : List (List Char) → Option (List Char)
  | [] => none
  | m :: rest =>
    if 4 ≤ (m.filter isDigitC).length ∧ (m.filter isDigitC).length ≤ 8
    then some (m.filter isDigitC)
    else firstValidCode rest

/-- The outer loop of `extractOTP` over the pattern list. -/
def extractFromPatterns : List OtpPattern → List Char → Option (List Char)
  | [], _ => none
  | p :: ps, t =>
    match firstValidCode (patternMatches p t) with
    | some c => some c
    | none => extractFromPatterns ps t

/-- `extractOTP` applied to an already decoded text
(`background.ts` lines 137-154). -/
def extractOTPText (t : List Char) : Option (List Char) :=
  extractFromPatterns OTP_PATTERNS t

/-! ### Declarative run predicates -/

/-- The character immediately preceding a position, where `pre` is the
text before the position and `p` the character before the whole scanned
suffix. -/
def prevOpt (p : Option Char) (pre : List Char) : Option Char :=
  match pre.getLast? with
  | some c => some c
  | none => p

/-- `ds` occurs in `t` as a standalone digit run: a nonempty all-digit
segment whose neighbours on both sides (if any) are non-word
characters.  This is exactly what `/\b\d{k}\b/` requires of a length-`k`
match. -/
def standaloneRun (t ds : List Char) : Prop :=
  ∃ pre post, t = pre ++ ds ++ post ∧ ds ≠ [] ∧
    (∀ c ∈ ds, isDigitC c = true) ∧
    (∀ c, pre.getLast? = some c → isWordC c = false) ∧
    (∀ c, post.head? = some c → isWordC c = false)

/-- `t` contains no maximal digit run of length 4 to 8: every all-digit
segment bounded by non-digits (or the ends of the text) has a length
outside `[4, 8]`. -/
def noMidRun (t : List Char) : Prop :=
  ∀ pre ds post, t = pre ++ ds ++ post → ds ≠ [] →
    (∀ c ∈ ds, isDigitC c = true) →
    (∀ c, pre.getLast? = some c → isDigitC c = false) →
    (∀ c, post.head? = some c → isDigitC c = false) →
    ¬(4 ≤ ds.length ∧ ds.length ≤ 8)

/-! ### Base64url and UTF-8 decoding (`decodeBase64`)

`decodeBase64` (`background.ts` lines 176-185) rewrites base64url to
base64, applies `atob`, and converts the binary string to text with
`decodeURIComponent(escape(...))`, which amounts to a strict UTF-8
decode; every failure is caught and yields `''`. -/

/-- Value of one base64 alphabet character. -/
def b64Val (c : Char) : Option Nat :=
  if 65 ≤ c.toNat ∧ c.toNat ≤ 90 then some (c.toNat - 65)
  else if 97 ≤ c.toNat ∧ c.toNat ≤ 122 then some (c.toNat - 97 + 26)
  else if 48 ≤ c.toNat ∧ c.toNat ≤ 57 then some (c.toNat - 48 + 52)
  else if c.toNat = 43 then some 62
  else if c.toNat = 47 then some 63
  else none

/-- Decode base64 quartets into byte triples; a trailing pair or triple
contributes one or two bytes.  `none` models the
`InvalidCharacterError` thrown on a bad character or a length that is
1 mod 4. -/
def b64Groups : List Char → Option (List Nat)
  | [] => some []
  | [_] => none
  | [c1, c2] => do
    let v1 ← b64Val c1
    let v2 ← b64Val c2
    some [v1 * 4 + v2 / 16]
  | [c1, c2, c3] => do
    let v1 ← b64Val c1
    let v2 ← b64Val c2
    let v3 ← b64Val c3
    some [v1 * 4 + v2 / 16, v2 % 16 * 16 + v3 / 4]
  | c1 :: c2 :: c3 :: c4 :: rest => do
    let v1 ← b64Val c1
    let v2 ← b64Val c2
    let v3 ← b64Val c3
    let v4 ← b64Val c4
    let tail ← b64Groups rest
    some ((v1 * 4 + v2 / 16) :: (v2 % 16 * 16 + v3 / 4) ::
      (v3 % 4 * 64 + v4) :: tail)

/-- The ASCII whitespace `atob` removes before decoding. -/
def isAsciiWs (c : Char) : Bool :=
  c.toNat = 9 || c.toNat = 10 || c.toNat = 12 || c.toNat = 13 ||
    c.toNat = 32

/-- `atob`: forgiving base64 decode to a byte list. -/
def atobBytes (s0 : List Char) : Option (List Nat) :=
  let s := s0.filter (fun c => !isAsciiWs c)
  let stripped :=
    if s.length % 4 == 0 then
      let r := s.reverse
      if r.take 2 = ('=' :: '=' :: []) then (r.drop 2).reverse
      else if r.take 1 = ('=' :: []) then (r.drop 1).reverse
      else s
    else s
  b64Groups stripped

/-- Is `b` a UTF-8 continuation byte? -/
def utf8Cont (b : Nat) : Bool := 128 ≤ b && b ≤ 191

/-- Strict UTF-8 decoding of a byte list (the effect of
`decodeURIComponent(escape(binary))`); `none` models the `URIError`
thrown on a malformed sequence. -/
def utf8Decode : List Nat → Option (List Char)
  | [] => some []
  | b1 :: rest =>
    if b1 ≤ 127 then
      (utf8Decode rest).map (fun tl => Char.ofNat b1 :: tl)
    else if 194 ≤ b1 && b1 ≤ 223 then
      match rest with
      | b2 :: r2 =>
        if utf8Cont b2 then
          (utf8Decode r2).map (fun tl =>
            Char.ofNat ((b1 - 192) * 64 + (b2 - 128)) :: tl)
        else none
      | [] => none
    else if 224 ≤ b1 && b1 ≤ 239 then
      match rest with
      | b2 :: b3 :: r2 =>
        if (if b1 = 224 then 160 ≤ b2 && b2 ≤ 191
            else if b1 = 237 then 128 ≤ b2 && b2 ≤ 159
            else utf8Cont b2) && utf8Cont b3 then
          (utf8Decode r2).map (fun tl =>
            Char.ofNat ((b1 - 224) * 4096 + (b2 - 128) * 64 + (b3 - 128)) :: tl)
        else none
      | _ => none
    else if 240 ≤ b1 && b1 ≤ 244 then
      match rest with
      | b2 :: b3 :: b4 :: r2 =>
        if (if b1 = 240 then 144 ≤ b2 && b2 ≤ 191
            else if b1 = 244 then 128 ≤ b2 && b2 ≤ 143
            else utf8Cont b2) && utf8Cont b3 && utf8Cont b4 then
          (utf8Decode r2).map (fun tl =>
            Char.ofNat ((b1 - 240) * 262144 + (b2 - 128) * 4096 +
              (b3 - 128) * 64 + (b4 - 128)) :: tl)
        else none
      | _ => none
    else none

/-- `decodeBase64`: base64url to base64, `atob`, UTF-8 decode; any
exception is caught and `''` returned. -/
def decodeBase64 (data : String) : String :=
  let b64 := data.data.map (fun c =>
    if c = '-' then '+' else if c = '_' then '/' else c)
  match atobBytes b64 with
  | none => ""
  | some bytes =>
    match utf8Decode bytes with
    | none => ""
    | some cs => String.mk cs

/-! ### Gmail message model and `extractOTP` on messages -/

/-- The `body` object of a payload or part (`{ data: string }`). -/
structure GmailPartBody where
  data : String
deriving DecidableEq, Repr

/-- One entry of `payload.parts`. -/
structure GmailPart where
  body : GmailPartBody
  mimeType : String
deriving DecidableEq, Repr

/-- The `payload` object of a Gmail message response. -/
structure GmailPayload where
  headers : List (String × String)
  parts : Option (List GmailPart)
  body : Option GmailPartBody
deriving DecidableEq, Repr

/-- `GmailMessageResponse`: a full message fetch result. -/
structure GmailMessageResponse where
  payload : GmailPayload
  snippet : String
deriving DecidableEq, Repr

/-- `GmailMessage`: one search-result entry. -/
structure GmailMessage where
  id : String
  snippet : String
deriving DecidableEq, Repr

/-- `getMessageTextContent` (`background.ts` lines 156-174): the
snippet, then the decoded top-level body when its `data` is truthy,
then every decoded `text/plain` or `text/html` part, joined by
spaces. -/
def getMessageTextContent (message : GmailMessageResponse) : String :=
  let content := message.snippet
  let content :=
    match message.payload.body with
    | some b => if b.data ≠ "" then content ++ " " ++ decodeBase64 b.data
                else content
    | none => content
  match message.payload.parts with
  | some parts =>
    parts.foldl (fun acc part =>
      if part.mimeType = "text/plain" ∨ part.mimeType = "text/html"
      then acc ++ " " ++ decodeBase64 part.body.data
      else acc) content
  | none => content

/-- `extractOTP` on a message: the pattern loop over the assembled
text content. -/
def extractOTP (message : GmailMessageResponse) : Option String :=
  (extractOTPText (getMessageTextContent message).data).map String.mk

/-! ### The retrieval orchestrator (`fetchOTPForDomain`) -/

/-- `{ success, otp?, error? }`. -/
structure OTPResponse where
  success : Bool
  otp : Option String
  error : Option String
deriving DecidableEq, Repr

/-- `String.prototype.includes`, used by the Firefox 401 handler. -/
def listContainsSub (needle : List Char) : List Char → Bool
  | [] => needle.isEmpty
  | c :: rest => needle.isPrefixOf (c :: rest) || listContainsSub needle rest

/-- `hay.includes(sub)`. -/
def strIncludes (hay sub : String) : Bool := listContainsSub sub.data hay.data

/-- `response.ok` for a fetch response. -/
def httpOk (status : Nat) : Bool := 200 ≤ status && status ≤ 299

/-- Environment of one orchestrator run: the credential the identity
API yields (`none` models `getAccessToken` resolving `null`), and the
remote mail API's answers — HTTP status and JSON body — for the search
request and for each body-fetch request. -/
structure MailEnv where
  token : Option String
  searchStatus : Nat
  searchMessages : List GmailMessage
  detailStatus : String → Nat
  detailResponse : String → GmailMessageResponse

/-- Chrome `searchGmailMessages` (`background.ts` lines 101-118):
non-2xx throws the generic status message; otherwise
`data.messages || []`. -/
def searchGmailMessagesC (env : MailEnv) : Except String (List GmailMessage) :=
  if httpOk env.searchStatus then .ok env.searchMessages
  else .error ("Gmail API error: " ++ toString env.searchStatus)

/-- Chrome `getMessageDetail` (`background.ts` lines 120-135). -/
def getMessageDetailC (env : MailEnv) (messageId : String) :
    Except String GmailMessageResponse :=
  if httpOk (env.detailStatus messageId) then .ok (env.detailResponse messageId)
  else .error ("Gmail API error: " ++ toString (env.detailStatus messageId))

/-- Firefox `searchGmailMessages` (`background-firefox.ts` lines
398-418): a 401 throws a dedicated message before the generic one. -/
def searchGmailMessagesFx (env : MailEnv) :
    Except String (List GmailMessage) :=
  if httpOk env.searchStatus then .ok env.searchMessages
  else if env.searchStatus = 401 then
    .error ("401 Unauthorized - token expired")
  else .error ("Gmail API error: " ++ toString env.searchStatus)

/-- Firefox `getMessageDetail` (`background-firefox.ts` lines
420-438). -/
def getMessageDetailFx (env : MailEnv) (messageId : String) :
    Except String GmailMessageResponse :=
  if httpOk (env.detailStatus messageId) then .ok (env.detailResponse messageId)
  else if env.detailStatus messageId = 401 then
    .error ("401 Unauthorized - token expired")
  else .error ("Gmail API error: " ++ toString (env.detailStatus messageId))

/-- The scan loop of `fetchOTPForDomain` over `messages.slice(0, 5)`,
instrumented with the number of `getMessageDetail` calls it performs:
fetch the body, attempt extraction, and stop at the first hit or the
first thrown error. -/
def fetchLoop (detail : String → Except String GmailMessageResponse) :
    List GmailMessage → Except String (Option String) × Nat
  | [] => (.ok none, 0)
  | m :: rest =>
    match detail m.id with
    | .error e => (.error e, 1)
    | .ok d =>
      match extractOTP d with
      | some otp => (.ok (some otp), 1)
      | none =>
        let r := fetchLoop detail rest
        (r.1, r.2 + 1)

/-- Chrome `fetchOTPForDomain` (`background.ts` lines 47-73), paired
with the number of body fetches performed.  The `catch` turns a thrown
message into the error field. -/
def fetchOTPForDomainC (env : MailEnv) (domain : String) :
    OTPResponse × Nat :=
  match env.token with
  | none => (⟨false, none, some ("Gmail authentication required")⟩, 0)
  | some _ =>
    match searchGmailMessagesC env with
    | .error e => (⟨false, none, some e⟩, 0)
    | .ok messages =>
      if messages.isEmpty then
        (⟨false, none, some ("No recent emails found for " ++ domain)⟩, 0)
      else
        match fetchLoop (getMessageDetailC env) (messages.take 5) with
        | (.ok (some otp), n) => (⟨true, some otp, none⟩, n)
        | (.ok none, n) =>
          (⟨false, none, some ("No OTP found in recent emails")⟩, n)
        | (.error e, n) => (⟨false, none, some e⟩, n)

/-- Firefox `fetchOTPForDomain` (`background-firefox.ts` lines
127-163), additionally reporting whether the `catch` clause cleared
the cached token (its 401 branch).  The thrown message is inspected
with `error.message.includes('401')`. -/
def fetchOTPForDomainFx (env : MailEnv) (domain : String) :
    OTPResponse × Nat × Bool :=
  match env.token with
  | none => (⟨false, none, some ("Gmail authentication required")⟩, 0, false)
  | some _ =>
    match searchGmailMessagesFx env with
    | .error e =>
      if strIncludes e ("401") then
        (⟨false, none, some ("Authentication expired - please try again")⟩,
          0, true)
      else (⟨false, none, some e⟩, 0, false)
    | .ok messages =>
      if messages.isEmpty then
        (⟨false, none, some ("No recent emails found for " ++ domain)⟩,
          0, false)
      else
        match fetchLoop (getMessageDetailFx env) (messages.take 5) with
        | (.ok (some otp), n) => (⟨true, some otp, none⟩, n, false)
        | (.ok none, n) =>
          (⟨false, none, some ("No OTP found in recent emails")⟩, n, false)
        | (.error e, n) =>
          if strIncludes e ("401") then
            (⟨false, none,
              some ("Authentication expired - please try again")⟩, n, true)
          else (⟨false, none, some e⟩, n, false)

/-! ### Concrete environments used by the witnesses -/

/-- A message response carrying only a snippet. -/
def mkResp (s : String) : GmailMessageResponse := ⟨⟨[], none, none⟩, s⟩

/-- Five search results; only the third message's body contains a
code. -/
def envHit : MailEnv where
  token := some ("tok")
  searchStatus := 200
  searchMessages :=
    [⟨"m1", ""⟩, ⟨"m2", ""⟩, ⟨"m3", ""⟩, ⟨"m4", ""⟩, ⟨"m5", ""⟩]
  detailStatus := fun _ => 200
  detailResponse := fun i =>
    if i = "m3" then mkResp ("your code: 482913") else mkResp ("no code here")

/-- Search succeeds but no message contains a code. -/
def envMiss : MailEnv where
  token := some ("tok")
  searchStatus := 200
  searchMessages := [⟨"m1", ""⟩, ⟨"m2", ""⟩]
  detailStatus := fun _ => 200
  detailResponse := fun _ => mkResp ("no code here")

/-- No credential. -/
def envNoTok : MailEnv where
  token := none
  searchStatus := 200
  searchMessages := []
  detailStatus := fun _ => 200
  detailResponse := fun _ => mkResp ("")

/-- Credential present, empty search result. -/
def envEmpty : MailEnv where
  token := some ("tok")
  searchStatus := 200
  searchMessages := []
  detailStatus := fun _ => 200
  detailResponse := fun _ => mkResp ("")

/-- The search request is answered with HTTP 401. -/
def env401 : MailEnv where
  token := some ("tok")
  searchStatus := 401
  searchMessages := []
  detailStatus := fun _ => 200
  detailResponse := fun _ => mkResp ("")

/-- The body fetch of the only message is answered with HTTP 401. -/
def env401Detail : MailEnv where
  token := some ("tok")
  searchStatus := 200
  searchMessages := [⟨"m1", ""⟩]
  detailStatus := fun _ => 401
  detailResponse := fun _ => mkResp ("")

/-- The search request fails with HTTP 500. -/
def env500 : MailEnv where
  token := some ("tok")
  searchStatus := 500
  searchMessages := []
  detailStatus := fun _ => 200
  detailResponse := fun _ => mkResp ("")

/-! ### The Firefox delivery coordinator

`processOTPRequest` (`background-firefox.ts` lines 54-124) runs the
orchestrator and then delivers: over the bridge port plus clipboard,
clipboard only, or failure recording; it always ends in
`showPopupWithResult`, which persists the single-slot
`latest_otp_result` record and updates the badge. -/

/-- The record `showPopupWithResult` stores (result fields plus the
`Date.now()` timestamp). -/
structure StoredResult where
  success : Bool
  otp : Option String
  domain : String
  message : String
  timestamp : Nat
deriving DecidableEq, Repr

/-- Observable effects of a delivery run, in order: writes of the
`latest_otp_result` storage slot, badge updates (the flag shown),
clipboard attempts (with the injection outcome), and `fillOTP`
messages posted to bridge ports. -/
structure Effects where
  stores : List StoredResult
  badges : List Bool
  clipboardAttempts : List Bool
  portSends : List (Nat × String)
deriving DecidableEq, Repr

/-- No effects. -/
def Effects.empty : Effects := ⟨[], [], [], []⟩

/-- Sequential composition of effects. -/
def Effects.seq (a b : Effects) : Effects :=
  ⟨a.stores ++ b.stores, a.badges ++ b.badges,
   a.clipboardAttempts ++ b.clipboardAttempts, a.portSends ++ b.portSends⟩

/-- Environment of the delivery coordinator: which tabs have a live
bridge port (`activePorts`), whether `port.postMessage` throws and
with which message, whether the clipboard injection succeeds, whether
the storage and badge APIs throw, and the wall clock. -/
structure DeliveryEnv where
  hasPort : Nat → Bool
  portThrows : Bool
  portErrorMsg : String
  clipboardOk : Bool
  storageFails : Bool
  badgeFails : Bool
  now : Nat

/-- `copyToClipboard` (`background-firefox.ts` lines 165-223): the
write is attempted by script injection and every error is caught and
swallowed, so the call always returns normally, recording one
attempt. -/
def copyToClipboard (env : DeliveryEnv) (_text : String) : Effects :=
  ⟨[], [], [env.clipboardOk], []⟩

/-- `showPopupWithResult` (`background-firefox.ts` lines 225-274):
store the result, then update the badge; if that throws, the `catch`
falls back to storing the result again (and swallows a second storage
failure). -/
def showPopupWithResult (env : DeliveryEnv) (r : StoredResult) : Effects :=
  if env.storageFails then ⟨[], [], [], []⟩
  else if env.badgeFails then ⟨[r, r], [], [], []⟩
  else ⟨[r], [r.success], [], []⟩

/-- JavaScript truthiness of the optional tab id (`autoFill && tabId`:
`undefined` and `0` are falsy). -/
def truthyTab : Option Nat → Bool
  | none => false
  | some t => t != 0

/-- JavaScript truthiness of an optional string (`result.otp`). -/
def truthyStr : Option String → Bool
  | none => false
  | some s => s ≠ ""

/-- `result.error || default`. -/
def errMsgOrDefault (e : Option String) (d : String) : String :=
  match e with
  | some s => if s ≠ "" then s else d
  | none => d

/-- `processOTPRequest` (`background-firefox.ts` lines 54-124).  The
only statement inside its `try` that can throw is
`port.postMessage` (the orchestrator catches internally, and
`copyToClipboard`/`showPopupWithResult` catch their own errors); the
outer `catch` records an error outcome. -/
def processOTPRequest (menv : MailEnv) (env : DeliveryEnv) (domain : String)
    (autoFill : Bool) (tabId : Option Nat) : Effects :=
  let result := (fetchOTPForDomainFx menv domain).1
  if result.success && truthyStr result.otp then
    let otp := result.otp.getD ""
    if autoFill && truthyTab tabId then
      if env.hasPort (tabId.getD 0) then
        if env.portThrows then
          showPopupWithResult env
            ⟨false, none, domain, "Error: " ++ env.portErrorMsg, env.now⟩
        else
          Effects.seq ⟨[], [], [], [(tabId.getD 0, otp)]⟩
            (Effects.seq (copyToClipboard env otp)
              (showPopupWithResult env
                ⟨true, some otp, domain,
                  "OTP: " ++ otp ++ " (auto-filled & copied)", env.now⟩))
      else
        Effects.seq (copyToClipboard env otp)
          (showPopupWithResult env
            ⟨true, some otp, domain,
              "OTP: " ++ otp ++ " (copied to clipboard - auto-fill failed)",
              env.now⟩)
    else
      Effects.seq (copyToClipboard env otp)
        (showPopupWithResult env
          ⟨true, some otp, domain,
            "OTP: " ++ otp ++ " (copied to clipboard)", env.now⟩)
  else
    showPopupWithResult env
      ⟨false, none, domain,
        errMsgOrDefault result.error
          ("No OTP found in recent emails for " ++ domain), env.now⟩

/-! ### The runtime message listeners -/

/-- A message arriving at the Firefox background listener
(`background-firefox.ts` lines 585-616). -/
inductive FxMessage
  | injectBridge (tabId : Nat)
  | fetchOTP (domain : String) (timestamp : Nat) (autoFill : Bool)
      (tabId : Option Nat)
  | sendOTPToBridge (tabId : Nat) (otp : String)
deriving DecidableEq, Repr

/-- The response value a Firefox listener branch returns to the
sender; only `injectBridge` produces one. -/
inductive FxAck
  | injectResult (success : Bool) (error : Option String)
deriving DecidableEq, Repr

/-- The Firefox `onMessage` listener: for `fetchOTP` it starts
`processOTPRequest` without awaiting it and returns immediately with
no response value (`return;`). -/
def firefoxOnMessage (menv : MailEnv) (env : DeliveryEnv)
    (injectOk : Bool) : FxMessage → Option FxAck × Effects
  | .injectBridge _ =>
    if injectOk then (some (.injectResult true none), Effects.empty)
    else (some (.injectResult false (some ("bridge injection failed"))),
      Effects.empty)
  | .fetchOTP domain _ autoFill tabId =>
    (none, processOTPRequest menv env domain autoFill tabId)
  | .sendOTPToBridge t otp =>
    if env.hasPort t then (none, ⟨[], [], [], [(t, otp)]⟩)
    else (none, Effects.empty)

/-- The payload of a Chrome `fetchOTP` message. -/
structure ChromeFetchMessage where
  domain : String
  autoFill : Bool
deriving DecidableEq, Repr

/-- Chrome `fetchOTPWithAutoFill` (`background.ts` lines 187-203):
run the orchestrator; the auto-fill attempt is best-effort and never
alters the returned response. -/
def fetchOTPWithAutoFill (menv : MailEnv) (domain : String)
    (_autoFill : Bool) : OTPResponse :=
  (fetchOTPForDomainC menv domain).1

/-- The Chrome `onMessage` listener (`background.ts` lines 256-261):
for a `fetchOTP` message it answers the sender through `sendResponse`
with the full `OTPResponse` of the completed run. -/
def chromeOnMessage (menv : MailEnv) (msg : ChromeFetchMessage) :
    Option OTPResponse :=
  some (fetchOTPWithAutoFill menv msg.domain msg.autoFill)

/-- A delivery environment with a live, working port on tab 7 and all
platform surfaces functioning. -/
def envDeliver : DeliveryEnv where
  hasPort := fun t => t == 7
  portThrows := false
  portErrorMsg := "port error"
  clipboardOk := true
  storageFails := false
  badgeFails := false
  now := 0

/-- Like `envDeliver` but with no live port on any tab and a failing
clipboard injection. -/
def envDeliverNoPort : DeliveryEnv where
  hasPort := fun _ => false
  portThrows := false
  portErrorMsg := "port error"
  clipboardOk := false
  storageFails := false
  badgeFails := false
  now := 0

/-! ### The content-script form-fill model

The page is modelled as the list of its input elements in document
order.  Each input carries the attributes the content scripts inspect,
its visual position, the id of its nearest `form`/`div`/`section`
ancestor (`0` when there is none, in which case `closest` returns
`null` and the container is the document; pages are modelled with one
level of containers), and the class names present on its ancestors
(for the descendant selectors). -/

/-- An `<input>` element as seen by the fill scripts. -/
structure InputEl where
  typeAttr : Option String
  autocomplete : String
  inputMode : String
  maxLengthAttr : Option Nat
  name : String
  id : String
  className : String
  placeholder : String
  dataTestid : Option String
  disabled : Bool
  readOnly : Bool
  displayNone : Bool
  offsetParentNull : Bool
  top : Int
  left : Int
  containerId : Nat
  ancestorClasses : List String
  formText : Option String
deriving DecidableEq, Repr

/-- `toLowerCase` (ASCII, as relevant to the inspected keywords). -/
def strLower (s : String) : String := String.mk (s.data.map lowerC)

/-- Accumulate the space-separated tokens of a class attribute. -/
def classTokensAux : List Char → List Char → List String
  | acc, [] => if acc.isEmpty then [] else [String.mk acc.reverse]
  | acc, c :: rest =>
    if c = ' ' then
      if acc.isEmpty then classTokensAux [] rest
      else String.mk acc.reverse :: classTokensAux [] rest
    else classTokensAux (c :: acc) rest

/-- The class tokens of a `class` attribute value. -/
def classTokens (s : String) : List String :=
  classTokensAux [] s.data

/-- The attribute text `isValidOTPInput` inspects: name, id, class,
placeholder and `data-testid`, lower-cased and joined by spaces
(`otp-autofill.ts` lines 119-125). -/
def inputAttributes (el : InputEl) : String :=
  strLower el.name ++ " " ++ strLower el.id ++ " " ++
    strLower el.className ++ " " ++ strLower el.placeholder ++ " " ++
    strLower (el.dataTestid.getD "")

/-- Does the attribute text mention one of the excluded purposes? -/
def attrsContainBanned (el : InputEl) : Bool :=
  strIncludes (inputAttributes el) ("email") ||
    strIncludes (inputAttributes el) ("password") ||
    strIncludes (inputAttributes el) ("username") ||
    strIncludes (inputAttributes el) ("phone")

/-- `isValidOTPInput` (`otp-autofill.ts` lines 112-134): reject
disabled, read-only or `display: none` inputs, then reject inputs
whose attributes suggest email, password, username or phone. -/
def isValidOTPInput (el : InputEl) : Bool :=
  if el.disabled || el.readOnly || el.displayNone then false
  else !(attrsContainBanned el)

/-- One entry of `OTP_SELECTORS`. -/
inductive OtpSelector
  | acOneTimeCode
  | imNumericMax (n : Nat)
  | cls (c : String)
  | ancestorCls (c : String)
  | typeMax (t : String) (n : Nat)
deriving DecidableEq, Repr

/-- CSS matching of one selector against an input. -/
def matchesSelector : OtpSelector → InputEl → Bool
  | .acOneTimeCode, el => el.autocomplete == "one-time-code"
  | .imNumericMax n, el =>
    el.inputMode == "numeric" && el.maxLengthAttr == some n
  | .cls c, el => (classTokens el.className).contains c
  | .ancestorCls c, el => el.ancestorClasses.contains c
  | .typeMax t n, el => el.typeAttr == some t && el.maxLengthAttr == some n

/-- `OTP_SELECTORS` (`otp-autofill.ts` lines 11-46), in order. -/
def OTP_SELECTORS : List OtpSelector :=
  [.acOneTimeCode,
   .imNumericMax 4, .imNumericMax 5, .imNumericMax 6, .imNumericMax 7,
   .imNumericMax 8,
   .cls ("otp-input"), .cls ("verification-input"), .cls ("otp-field"),
   .cls ("verification-code"), .cls ("auth-code"),
   .ancestorCls ("otp-input"), .ancestorCls ("verification-input"),
   .ancestorCls ("otp-form"), .ancestorCls ("verification-form"),
   .typeMax ("text") 1, .typeMax ("number") 1,
   .typeMax ("text") 4, .typeMax ("text") 5, .typeMax ("text") 6,
   .typeMax ("text") 7, .typeMax ("text") 8,
   .typeMax ("number") 4, .typeMax ("number") 5, .typeMax ("number") 6,
   .typeMax ("number") 7, .typeMax ("number") 8]

/-- `OTP_KEYWORDS` (`otp-autofill.ts` lines 48-51). -/
def OTP_KEYWORDS : List String :=
  ["otp", "verification", "verify", "code", "token", "pin", "auth", "2fa",
   "two-factor", "sms", "security", "confirm", "one-time"]

/-- `element.maxLength`: `-1` when the attribute is absent. -/
def maxLengthProp (el : InputEl) : Int :=
  match el.maxLengthAttr with
  | some n => (n : Int)
  | none => -1

/-- `calculateConfidence` (`otp-autofill.ts` lines 136-174); its
`selector` argument is unused by the source. -/
def calculateConfidence (el : InputEl) : Nat :=
  (if el.autocomplete == "one-time-code" then 100 else 0) +
  (if el.inputMode == "numeric" then 50 else 0) +
  (if 4 ≤ maxLengthProp el ∧ maxLengthProp el ≤ 8 then 30 else 0) +
  (if maxLengthProp el = 1 then 20 else 0) +
  (OTP_KEYWORDS.filter (fun k =>
    strIncludes (strLower el.name ++ " " ++ strLower el.id ++ " " ++
      strLower el.className ++ " " ++ strLower el.placeholder) k)).length
    * 10 +
  (match el.formText with
   | some ft => (OTP_KEYWORDS.filter (fun k =>
       strIncludes (strLower ft) k)).length * 5
   | none => 0)

/-- The two fill modes of `determineInputType`. -/
inductive FillMode
  | single
  | multi
deriving DecidableEq, Repr

/-- `determineInputType` (`otp-autofill.ts` lines 176-179). -/
def determineInputType (el : InputEl) : FillMode :=
  if maxLengthProp el = 1 then .single else .multi

/-- `OTPInputCandidate`. -/
structure OTPInputCandidate where
  element : InputEl
  confidence : Nat
  type : FillMode
deriving DecidableEq, Repr

/-- `document.querySelectorAll` over the page model: a document-order
filter. -/
def querySelectorAll (dom : List InputEl) (sel : OtpSelector) :
    List InputEl :=
  dom.filter (fun el => matchesSelector sel el)

/-- `findOTPInputs` before deduplication (`otp-autofill.ts` lines
83-106): per selector, the valid elements with their confidence and
mode. -/
def findOTPInputsRaw (dom : List InputEl) : List OTPInputCandidate :=
  OTP_SELECTORS.flatMap (fun sel =>
    ((querySelectorAll dom sel).filter isValidOTPInput).map (fun el =>
      ⟨el, calculateConfidence el, determineInputType el⟩))

/-- `removeDuplicates` (`otp-autofill.ts` lines 181-190): keep the
first candidate for each element. -/
def removeDuplicates (seen : List InputEl) :
    List OTPInputCandidate → List OTPInputCandidate
  | [] => []
  | c :: rest =>
    if seen.contains c.element then removeDuplicates seen rest
    else c :: removeDuplicates (c.element :: seen) rest

/-- The order of `candidates.sort((a, b) => b.confidence -
a.confidence)`: descending confidence. -/
def confGE (a b : OTPInputCandidate) : Prop :=
  b.confidence ≤ a.confidence

instance : DecidableRel confGE := fun a b => Nat.decLe _ _

instance : IsTotal OTPInputCandidate confGE :=
  ⟨fun a b => le_total b.confidence a.confidence⟩

instance : IsTrans OTPInputCandidate confGE :=
  ⟨fun _ _ _ hab hbc => le_trans hbc hab⟩

/-- The JavaScript `sort` is stable; a stable sort by the comparator's
order is an insertion sort. -/
def sortByConfidence (cs : List OTPInputCandidate) :
    List OTPInputCandidate :=
  cs.insertionSort confGE

/-- The order of the visual sort of `fillSingleDigitInputs`
(`rectA.top - rectB.top || rectA.left - rectB.left`): top-to-bottom,
then left-to-right. -/
def visualBefore (a b : InputEl) : Prop :=
  a.top < b.top ∨ (a.top = b.top ∧ a.left ≤ b.left)

instance : DecidableRel visualBefore := fun a b =>
  inferInstanceAs (Decidable (a.top < b.top ∨ (a.top = b.top ∧ a.left ≤ b.left)))

instance : IsTotal InputEl visualBefore :=
  ⟨fun a b => by unfold visualBefore; omega⟩

instance : IsTrans InputEl visualBefore :=
  ⟨fun a b c => by unfold visualBefore; omega⟩

/-- The stable visual sort. -/
def sortVisually (els : List InputEl) : List InputEl :=
  els.insertionSort visualBefore

/-- `container.querySelectorAll('input')`-visible inputs for the
container of `el`: with a `form`/`div`/`section` ancestor the inputs
sharing that container, otherwise the whole document. -/
def containerInputs (dom : List InputEl) (el : InputEl) : List InputEl :=
  if el.containerId = 0 then dom
  else dom.filter (fun i => i.containerId = el.containerId)

/-- `fillSingleDigitInputs` (`otp-autofill.ts` lines 207-243) given
the container's inputs: take the `maxlength="1"` inputs, filter them
for validity, sort them visually; reject when there are none or more
than the code has digits, else write one digit per box — the source
loop runs to the minimum of the two counts, which `zip` mirrors — and
report success.  Returns the filled (element, digit) pairs. -/
def fillSingleDigitInputs (cont : List InputEl) (otpCode : List Char) :
    Bool × List (InputEl × Char) :=
  let validInputs :=
    sortVisually ((cont.filter (fun i => i.maxLengthAttr == some 1)).filter
      isValidOTPInput)
  if validInputs.length = 0 ∨ validInputs.length > otpCode.length then
    (false, [])
  else (true, validInputs.zip otpCode)

/-- The candidate loop of `fillOTP` with `tryFillInput`
(`otp-autofill.ts` lines 53-81, 192-205): candidates in order of
descending confidence, stop at the first successful fill.
`fillMultiDigitInput` always succeeds on its candidate.  Returns the
overall result and the elements filled. -/
def fillOTPLoop (dom : List InputEl) (otpCode : List Char) :
    List OTPInputCandidate → Bool × List InputEl
  | [] => (false, [])
  | cand :: rest =>
    match cand.type with
    | .single =>
      let r := fillSingleDigitInputs (containerInputs dom cand.element)
        otpCode
      if r.1 then (true, r.2.map Prod.fst)
      else fillOTPLoop dom otpCode rest
    | .multi => (true, [cand.element])

/-- `fillOTP` (`otp-autofill.ts` lines 53-81). -/
def fillOTP (dom : List InputEl) (otpCode : List Char) :
    Bool × List InputEl :=
  fillOTPLoop dom otpCode
    (sortByConfidence (removeDuplicates [] (findOTPInputsRaw dom)))

/-! ### The bridge's own fill (`otp-bridge.ts`) -/

/-- The selector list of the bridge fill (`otp-bridge.ts` lines 27-33;
the Firefox bridge and the inline bridge in `background-firefox.ts`
use the same list). -/
inductive BridgeSelector
  | acOneTimeCode
  | imNumeric
  | typeText
  | typeNumber
  | noType
deriving DecidableEq, Repr

/-- CSS matching of one bridge selector. -/
def matchesBridgeSelector : BridgeSelector → InputEl → Bool
  | .acOneTimeCode, el => el.autocomplete == "one-time-code"
  | .imNumeric, el => el.inputMode == "numeric"
  | .typeText, el => el.typeAttr == some ("text")
  | .typeNumber, el => el.typeAttr == some ("number")
  | .noType, el => el.typeAttr == none

/-- The bridge selectors in priority order. -/
def BRIDGE_SELECTORS : List BridgeSelector :=
  [.acOneTimeCode, .imNumeric, .typeText, .typeNumber, .noType]

/-- `input.offsetParent !== null && !input.disabled &&
!input.readOnly`. -/
def bridgeFillable (el : InputEl) : Bool :=
  !el.offsetParentNull && !el.disabled && !el.readOnly

/-- The selector loop of the bridge's `fillOTPCode`. -/
def bridgeFillLoop (dom : List InputEl) :
    List BridgeSelector → Option InputEl
  | [] => none
  | sel :: rest =>
    match (dom.filter (fun el => matchesBridgeSelector sel el)).find?
        bridgeFillable with
    | some el => some el
    | none => bridgeFillLoop dom rest

/-- `fillOTPCode` (`otp-bridge.ts` lines 23-57): the first visible,
enabled, non-readonly input matched by the selector list, in order,
receives the whole code; no attribute exclusion is applied. -/
def bridgeFillTarget (dom : List InputEl) : Option InputEl :=
  bridgeFillLoop dom BRIDGE_SELECTORS

/-! ### Concrete pages used by the fill claims -/

/-- A visible, enabled text input named `username`. -/
def usernameInput : InputEl where
  typeAttr := some ("text")
  autocomplete := ""
  inputMode := ""
  maxLengthAttr := none
  name := "username"
  id := "login-user"
  className := ""
  placeholder := "Username"
  dataTestid := none
  disabled := false
  readOnly := false
  displayNone := false
  offsetParentNull := false
  top := 0
  left := 0
  containerId := 1
  ancestorClasses := []
  formText := none

/-- A semantic one-time-code input. -/
def otpBoxInput : InputEl where
  typeAttr := some ("text")
  autocomplete := "one-time-code"
  inputMode := "numeric"
  maxLengthAttr := some 6
  name := "otp"
  id := "otp"
  className := "otp-input"
  placeholder := ""
  dataTestid := none
  disabled := false
  readOnly := false
  displayNone := false
  offsetParentNull := false
  top := 10
  left := 0
  containerId := 1
  ancestorClasses := []
  formText := none

/-- One single-character code box at a given horizontal position. -/
def digitBox (n : Nat) (l : Int) : InputEl where
  typeAttr := some ("text")
  autocomplete := ""
  inputMode := "numeric"
  maxLengthAttr := some 1
  name := "code-" ++ toString n
  id := "code-" ++ toString n
  className := ""
  placeholder := ""
  dataTestid := none
  disabled := false
  readOnly := false
  displayNone := false
  offsetParentNull := false
  top := 0
  left := l
  containerId := 2
  ancestorClasses := []
  formText := none

/-! ### Facts about the character classes -/

lemma isWordC_of_isDigitC {c : Char} (h : isDigitC c = true) :
    isWordC c = true := by
  simp only [isWordC, Bool.or_eq_true]
  exact Or.inl (Or.inl (Or.inl h))

lemma isDigitC_eq_false_of_not_word {c : Char} (h : isWordC c = false) :
    isDigitC c = false := by
  cases hd : isDigitC c with
  | false => rfl
  | true => rw [isWordC_of_isDigitC hd] at h; cases h

lemma isDigitC_eq_false_of_isSepC {c : Char} (h : isSepC c = true) :
    isDigitC c = false := by
  cases hd : isDigitC c with
  | false => rfl
  | true =>
    exfalso
    simp only [isSepC, jsWhitespaceC, Bool.or_eq_true, Bool.and_eq_true,
      decide_eq_true_eq] at h
    simp only [isDigitC, Bool.and_eq_true, decide_eq_true_eq] at hd
    omega

lemma lowerC_of_digit {c : Char} (h : isDigitC c = true) : lowerC c = c := by
  simp only [isDigitC, Bool.and_eq_true, decide_eq_true_eq] at h
  rw [lowerC, if_neg]
  simp only [Bool.and_eq_true, decide_eq_true_eq]
  omega

lemma boundaryB_of {o : Option Char}
    (h : ∀ c, o = some c → isWordC c = false) : boundaryB o = true := by
  cases o with
  | none => rfl
  | some c => simp [boundaryB, h c rfl]

lemma not_word_of_boundaryB {o : Option Char} (h : boundaryB o = true) :
    ∀ c, o = some c → isWordC c = false := by
  intro c hc
  subst hc
  simpa [boundaryB] using h

lemma prevOpt_none (pre : List Char) : prevOpt none pre = pre.getLast? := by
  cases h : pre.getLast? <;> simp [prevOpt, h]

lemma mem_of_getLast?_eq {l : List Char} {c : Char}
    (h : l.getLast? = some c) : c ∈ l := by
  obtain ⟨hne, hc⟩ :=
    List.mem_getLast?_eq_getLast (Option.mem_def.2 h)
  subst hc
  exact List.getLast_mem hne

lemma prevOpt_cons (p : Option Char) (c : Char) (pre : List Char) :
    prevOpt p (c :: pre) = prevOpt (some c) pre := by
  cases pre with
  | nil => simp [prevOpt]
  | cons x xs =>
    rw [prevOpt, prevOpt, List.getLast?_cons_cons,
      List.getLast?_eq_getLast_of_ne_nil (List.cons_ne_nil x xs)]

/-! ### Soundness and completeness of the bare-run scanner -/

lemma bareScan_sound {k : Nat} {p : Option Char} {t m : List Char}
    (hm : m ∈ bareScan k p t) :
    ∃ pre post, t = pre ++ m ++ post ∧ m.length = k ∧
      (∀ x ∈ m, isDigitC x = true) ∧
      boundaryB (prevOpt p pre) = true ∧ boundaryB post.head? = true := by
  induction t generalizing p with
  | nil => simp [bareScan] at hm
  | cons c rest ih =>
    simp only [bareScan, List.mem_append] at hm
    rcases hm with h1 | h2
    · by_cases hb : bareHereB k p (c :: rest) = true
      · rw [if_pos hb, List.mem_singleton] at h1
        subst h1
        simp only [bareHereB, Bool.and_eq_true, beq_iff_eq] at hb
        obtain ⟨⟨⟨hbp, hlen⟩, hdig⟩, hafter⟩ := hb
        refine ⟨[], (c :: rest).drop k, by simp, hlen, ?_, ?_, hafter⟩
        · intro x hx
          exact List.all_eq_true.1 hdig x hx
        · simpa [prevOpt] using hbp
      · rw [if_neg hb] at h1
        cases h1
    · obtain ⟨pre', post', heq, hlen, hdig, hprev, hpost⟩ := ih h2
      exact ⟨c :: pre', post', by simp [heq], hlen, hdig,
        by rwa [prevOpt_cons], hpost⟩

lemma bareScan_complete {k : Nat} (hk : 0 < k) {p : Option Char}
    {pre m post : List Char}
    (hlen : m.length = k) (hdig : ∀ x ∈ m, isDigitC x = true)
    (hl : boundaryB (prevOpt p pre) = true)
    (hr : boundaryB post.head? = true) :
    bareScan k p (pre ++ m ++ post) ≠ [] := by
  induction pre generalizing p with
  | nil =>
    cases m with
    | nil => simp at hlen; omega
    | cons a as =>
      have hhere : bareHereB k p ((a :: as) ++ post) = true := by
        simp only [bareHereB, Bool.and_eq_true, beq_iff_eq]
        refine ⟨⟨⟨by simpa [prevOpt] using hl, ?_⟩, ?_⟩, ?_⟩
        · rw [List.take_left' hlen, hlen]
        · rw [List.take_left' hlen]
          exact List.all_eq_true.2 hdig
        · rw [List.drop_left' hlen]
          exact hr
      have : bareScan k p ((a :: as) ++ post) =
          (if bareHereB k p (a :: (as ++ post)) = true
            then [(a :: (as ++ post)).take k] else []) ++
          bareScan k (some a) (as ++ post) := rfl
      simp only [List.nil_append, this, List.cons_append] at *
      rw [if_pos hhere]
      simp
  | cons c pre' ih =>
    have : (c :: pre') ++ m ++ post = c :: (pre' ++ m ++ post) := by simp
    rw [this, bareScan]
    apply List.append_ne_nil_of_right_ne_nil
    exact ih (by rwa [prevOpt_cons] at hl)

/-! ### Soundness of the phrase scanner -/

lemma head?_dropWhile_false (p : Char → Bool) (l : List Char) {c : Char}
    (h : (l.dropWhile p).head? = some c) : p c = false := by
  induction l with
  | nil => cases h
  | cons a l ih =>
    rw [List.dropWhile_cons] at h
    by_cases ha : p a = true
    · exact ih (by rwa [if_pos ha] at h)
    · rw [if_neg ha] at h
      simp only [List.head?_cons, Option.some.injEq] at h
      subst h
      simpa using ha

lemma phraseHeadMatch_sound {q t m r : List Char}
    (h : phraseHeadMatch q t = some (m, r)) :
    t = m ++ r ∧ m.length = q.length ∧
      ∀ c ∈ m, ∃ qc ∈ q, lowerC c = qc := by
  induction q generalizing t m with
  | nil =>
    simp only [phraseHeadMatch, Option.some.injEq, Prod.mk.injEq] at h
    obtain ⟨hm, hr⟩ := h
    subst hm; subst hr
    simp
  | cons qc qs ih =>
    cases t with
    | nil => cases h
    | cons c rest =>
      simp only [phraseHeadMatch] at h
      by_cases hc : lowerC c = qc
      · rw [if_pos hc] at h
        cases hqs : phraseHeadMatch qs rest with
        | none => rw [hqs] at h; cases h
        | some pr =>
          obtain ⟨m', r'⟩ := pr
          rw [hqs] at h
          simp only [Option.some.injEq, Prod.mk.injEq] at h
          obtain ⟨hm, hr⟩ := h
          subst hm; subst hr
          obtain ⟨ht, hlen, hmem⟩ := ih hqs
          refine ⟨by simp [ht], by simp [hlen], ?_⟩
          intro x hx
          rcases List.mem_cons.1 hx with rfl | hx'
          · exact ⟨qc, List.mem_cons_self _ _, hc⟩
          · obtain ⟨qc', hqc', hl⟩ := hmem x hx'
            exact ⟨qc', List.mem_cons_of_mem _ hqc', hl⟩
      · rw [if_neg hc] at h
        cases h

lemma phraseHere_sound {q t m : List Char} (hq : q ≠ [])
    (hqd : ∀ c ∈ q, isDigitC c = false)
    (h : phraseHere q t = some m) :
    ∃ pre ds post, t = pre ++ ds ++ post ∧ pre ≠ [] ∧ ds ≠ [] ∧
      (∀ c ∈ ds, isDigitC c = true) ∧
      m.filter isDigitC = ds ∧
      (∀ c, pre.getLast? = some c → isDigitC c = false) ∧
      (∀ c, post.head? = some c → isDigitC c = false) := by
  rw [phraseHere] at h
  cases hph : phraseHeadMatch q t with
  | none => rw [hph] at h; cases h
  | some pr =>
    obtain ⟨mph, r⟩ := pr
    rw [hph] at h
    simp only at h
    by_cases hds : (r.dropWhile isSepC).takeWhile isDigitC = []
    · rw [if_pos (by simpa [List.isEmpty_iff] using hds)] at h
      cases h
    · rw [if_neg (by simpa [List.isEmpty_iff] using hds)] at h
      simp only [Option.some.injEq] at h
      obtain ⟨ht, hlen, hmem⟩ := phraseHeadMatch_sound hph
      have hmphnd : ∀ c ∈ mph, isDigitC c = false := by
        intro c hc
        obtain ⟨qc, hqc, hl⟩ := hmem c hc
        cases hdc : isDigitC c with
        | false => rfl
        | true =>
          rw [lowerC_of_digit hdc] at hl
          subst hl
          rw [hqd c hqc] at hdc
          cases hdc
      have hsepnd : ∀ c ∈ r.takeWhile isSepC, isDigitC c = false :=
        fun c hc => isDigitC_eq_false_of_isSepC (List.mem_takeWhile_imp hc)
      have hdsd : ∀ c ∈ (r.dropWhile isSepC).takeWhile isDigitC,
          isDigitC c = true :=
        fun c hc => List.mem_takeWhile_imp hc
      have hmph_ne : mph ≠ [] := by
        intro h0
        rw [h0] at hlen
        exact hq (List.eq_nil_of_length_eq_zero hlen.symm)
      have h1 : (r.dropWhile isSepC).takeWhile isDigitC ++
          (r.dropWhile isSepC).dropWhile isDigitC = r.dropWhile isSepC :=
        List.takeWhile_append_dropWhile isDigitC (r.dropWhile isSepC)
      have h2 : r.takeWhile isSepC ++ r.dropWhile isSepC = r :=
        List.takeWhile_append_dropWhile isSepC r
      refine ⟨mph ++ r.takeWhile isSepC,
        (r.dropWhile isSepC).takeWhile isDigitC,
        (r.dropWhile isSepC).dropWhile isDigitC, ?_, ?_, hds, hdsd, ?_, ?_, ?_⟩
      · rw [ht]
        simp only [List.append_assoc, h1, h2]
      · intro h0
        exact hmph_ne (List.append_eq_nil.1 h0).1
      · subst h
        rw [List.filter_append, List.filter_append,
          List.filter_eq_nil_iff.2 (fun c hc => by simp [hmphnd c hc]),
          List.filter_eq_nil_iff.2 (fun c hc => by simp [hsepnd c hc]),
          List.filter_eq_self.2 (fun c hc => hdsd c hc)]
        simp
      · intro c hc
        rcases List.mem_append.1 (mem_of_getLast?_eq hc) with h' | h'
        · exact hmphnd c h'
        · exact hsepnd c h'
      · intro c hc
        exact head?_dropWhile_false isDigitC (r.dropWhile isSepC) hc

lemma phraseScan_sound {q t m : List Char} (hq : q ≠ [])
    (hqd : ∀ c ∈ q, isDigitC c = false)
    (hm : m ∈ phraseScan q t) :
    ∃ pre ds post, t = pre ++ ds ++ post ∧ pre ≠ [] ∧ ds ≠ [] ∧
      (∀ c ∈ ds, isDigitC c = true) ∧ m.filter isDigitC = ds ∧
      (∀ c, pre.getLast? = some c → isDigitC c = false) ∧
      (∀ c, post.head? = some c → isDigitC c = false) := by
  induction t with
  | nil => simp [phraseScan] at hm
  | cons c rest ih =>
    simp only [phraseScan, List.mem_append] at hm
    rcases hm with h1 | h2
    · cases hph : phraseHere q (c :: rest) with
      | none => rw [hph] at h1; cases h1
      | some m' =>
        rw [hph, List.mem_singleton] at h1
        subst h1
        exact phraseHere_sound hq hqd hph
    · obtain ⟨pre, ds, post, ht, hpre_ne, hds_ne, hdig, hfil, hpre, hpost⟩ :=
        ih h2
      refine ⟨c :: pre, ds, post, by simp [ht], by simp, hds_ne, hdig, hfil,
        ?_, hpost⟩
      intro x hx
      cases pre with
      | nil => exact absurd rfl hpre_ne
      | cons y ys =>
        rw [List.getLast?_cons_cons] at hx
        exact hpre x hx

/-! ### Facts about the candidate filter and the pattern loop -/

lemma firstValidCode_eq_none {ms : List (List Char)}
    (h : ∀ m ∈ ms, ¬(4 ≤ (m.filter isDigitC).length ∧
        (m.filter isDigitC).length ≤ 8)) :
    firstValidCode ms = none := by
  induction ms with
  | nil => rfl
  | cons m rest ih =>
    simp only [firstValidCode]
    rw [if_neg (h m (List.mem_cons_self _ _))]
    exact ih (fun x hx => h x (List.mem_cons_of_mem _ hx))

lemma firstValidCode_some {ms : List (List Char)} {c : List Char}
    (h : firstValidCode ms = some c) :
    (∀ x ∈ c, isDigitC x = true) ∧ 4 ≤ c.length ∧ c.length ≤ 8 := by
  induction ms with
  | nil => cases h
  | cons m rest ih =>
    simp only [firstValidCode] at h
    by_cases hc : 4 ≤ (m.filter isDigitC).length ∧
        (m.filter isDigitC).length ≤ 8
    · rw [if_pos hc] at h
      simp only [Option.some.injEq] at h
      subst h
      exact ⟨fun x hx => List.of_mem_filter hx, hc.1, hc.2⟩
    · rw [if_neg hc] at h
      exact ih h

lemma extractFromPatterns_some {ps : List OtpPattern} {t c : List Char}
    (h : extractFromPatterns ps t = some c) :
    (∀ x ∈ c, isDigitC x = true) ∧ 4 ≤ c.length ∧ c.length ≤ 8 := by
  induction ps with
  | nil => cases h
  | cons p rest ih =>
    simp only [extractFromPatterns] at h
    cases hf : firstValidCode (patternMatches p t) with
    | some c' =>
      simp only [hf, Option.some.injEq] at h
      subst h
      exact firstValidCode_some hf
    | none =>
      simp only [hf] at h
      exact ih h

lemma extractFromPatterns_step_none (p : OtpPattern) {ps : List OtpPattern}
    {t : List Char} (h : firstValidCode (patternMatches p t) = none) :
    extractFromPatterns (p :: ps) t = extractFromPatterns ps t := by
  simp only [extractFromPatterns, h]

lemma extractFromPatterns_step_some (p : OtpPattern) {ps : List OtpPattern}
    {t c : List Char} (h : firstValidCode (patternMatches p t) = some c) :
    extractFromPatterns (p :: ps) t = some c := by
  simp only [extractFromPatterns, h]

lemma standalone_of_bareScan_mem {k : Nat} {t m : List Char} (hk : 0 < k)
    (hm : m ∈ bareScan k none t) : standaloneRun t m ∧ m.length = k := by
  obtain ⟨pre, post, heq, hlen, hdig, hprev, hpost⟩ := bareScan_sound hm
  rw [prevOpt_none] at hprev
  refine ⟨⟨pre, post, heq, ?_, hdig, not_word_of_boundaryB hprev,
    not_word_of_boundaryB hpost⟩, hlen⟩
  intro h0
  rw [h0] at hlen
  simp at hlen
  omega

lemma bareScan_ne_nil_of_standalone {t ds : List Char}
    (h : standaloneRun t ds) : bareScan ds.length none t ≠ [] := by
  obtain ⟨pre, post, heq, hne, hdig, hpre, hpost⟩ := h
  have hk : 0 < ds.length := List.length_pos.2 hne
  subst heq
  exact bareScan_complete hk rfl hdig
    (by rw [prevOpt_none]; exact boundaryB_of hpre) (boundaryB_of hpost)

lemma firstValidCode_bare {k : Nat} {t m : List Char} {ms : List (List Char)}
    (h4 : 4 ≤ k) (h8 : k ≤ 8) (h : bareScan k none t = m :: ms) :
    firstValidCode (bareScan k none t) = some m := by
  obtain ⟨hsr, hlen⟩ := standalone_of_bareScan_mem (by omega)
    (h ▸ List.mem_cons_self m ms)
  have hall : ∀ x ∈ m, isDigitC x = true := by
    obtain ⟨pre, post, heq, _, hdig, _, _⟩ := hsr
    exact hdig
  have hfil : m.filter isDigitC = m :=
    List.filter_eq_self.2 (fun a ha => hall a ha)
  rw [h]
  simp only [firstValidCode, hfil, hlen]
  rw [if_pos ⟨h4, h8⟩]

/-! ### The two halves of the extraction specification -/

lemma extract_none_of_noMidRun {t : List Char} (h : noMidRun t) :
    extractOTPText t = none := by
  have hbare : ∀ k, 4 ≤ k → k ≤ 8 →
      firstValidCode (bareScan k none t) = none := by
    intro k h4 h8
    apply firstValidCode_eq_none
    intro m hm
    obtain ⟨pre, post, heq, hlen, hdig, hprev, hpost⟩ := bareScan_sound hm
    rw [prevOpt_none] at hprev
    have hne : m ≠ [] := by
      intro h0
      rw [h0] at hlen
      simp at hlen
      omega
    have hfil : m.filter isDigitC = m :=
      List.filter_eq_self.2 (fun a ha => hdig a ha)
    rw [hfil, hlen]
    intro _
    exact h pre m post heq hne hdig
      (fun c hc => isDigitC_eq_false_of_not_word (not_word_of_boundaryB hprev c hc))
      (fun c hc => isDigitC_eq_false_of_not_word (not_word_of_boundaryB hpost c hc))
      ⟨by omega, by omega⟩
  have hphrase : ∀ q : List Char, q ≠ [] → (∀ c ∈ q, isDigitC c = false) →
      firstValidCode (phraseScan q t) = none := by
    intro q hq hqd
    apply firstValidCode_eq_none
    intro m hm
    obtain ⟨pre, ds, post, heq, _, hds_ne, hdig, hfil, hpre, hpost⟩ :=
      phraseScan_sound hq hqd hm
    rw [hfil]
    exact h pre ds post heq hds_ne hdig hpre hpost
  rw [extractOTPText, OTP_PATTERNS,
    extractFromPatterns_step_none (.bare 6) (hbare 6 (by omega) (by omega)),
    extractFromPatterns_step_none (.bare 4) (hbare 4 (by omega) (by omega)),
    extractFromPatterns_step_none (.bare 8) (hbare 8 (by omega) (by omega)),
    extractFromPatterns_step_none (.anchored (("verification code").data))
      (hphrase _ (by decide) (by decide)),
    extractFromPatterns_step_none (.anchored (("your code").data))
      (hphrase _ (by decide) (by decide)),
    extractFromPatterns_step_none (.anchored (("otp").data))
      (hphrase _ (by decide) (by decide)),
    extractFromPatterns_step_none (.anchored (("pin").data))
      (hphrase _ (by decide) (by decide))]
  rfl

lemma extract_some_of_standalone {t ds : List Char} (hsr : standaloneRun t ds)
    (hk : ds.length = 4 ∨ ds.length = 6 ∨ ds.length = 8) :
    ∃ c, extractOTPText t = some c ∧ standaloneRun t c ∧
      (c.length = 4 ∨ c.length = 6 ∨ c.length = 8) := by
  rw [extractOTPText, OTP_PATTERNS]
  cases h6 : bareScan 6 none t with
  | cons m ms =>
    obtain ⟨hsr', hlen⟩ := standalone_of_bareScan_mem (by omega)
      (h6 ▸ List.mem_cons_self m ms)
    exact ⟨m, by
      rw [extractFromPatterns_step_some (.bare 6)
        (firstValidCode_bare (by omega) (by omega) h6)], hsr', by omega⟩
  | nil =>
    rw [extractFromPatterns_step_none (.bare 6)
      (by show firstValidCode (bareScan 6 none t) = none; rw [h6]; rfl)]
    cases h4 : bareScan 4 none t with
    | cons m ms =>
      obtain ⟨hsr', hlen⟩ := standalone_of_bareScan_mem (by omega)
        (h4 ▸ List.mem_cons_self m ms)
      exact ⟨m, by
        rw [extractFromPatterns_step_some (.bare 4)
          (firstValidCode_bare (by omega) (by omega) h4)], hsr', by omega⟩
    | nil =>
      rw [extractFromPatterns_step_none (.bare 4)
        (by show firstValidCode (bareScan 4 none t) = none; rw [h4]; rfl)]
      have h8len : ds.length = 8 := by
        rcases hk with hl | hl | hl
        · exfalso
          have := bareScan_ne_nil_of_standalone hsr
          rw [hl] at this
          exact this h4
        · exfalso
          have := bareScan_ne_nil_of_standalone hsr
          rw [hl] at this
          exact this h6
        · exact hl
      cases h8 : bareScan 8 none t with
      | nil =>
        exfalso
        have := bareScan_ne_nil_of_standalone hsr
        rw [h8len] at this
        exact this h8
      | cons m ms =>
        obtain ⟨hsr', hlen⟩ := standalone_of_bareScan_mem (by omega)
          (h8 ▸ List.mem_cons_self m ms)
        exact ⟨m, by
          rw [extractFromPatterns_step_some (.bare 8)
            (firstValidCode_bare (by omega) (by omega) h8)], hsr', by omega⟩

/-! ### Claim theorems for the pattern extractor -/

/-- **C1, counterexample.**  The text `see 12345 ok` contains a
standalone digit run of length 5, which lies in `[4, 8]`, yet
`extractOTP` returns none: no pattern in `OTP_PATTERNS` can match a
standalone run of length 5 or 7. -/
theorem extractOTP_range_counterexample :
    standaloneRun (("see 12345 ok").data) (("12345").data) ∧
      4 ≤ (("12345").data).length ∧ (("12345").data).length ≤ 8 ∧
      extractOTPText (("see 12345 ok").data) = none := by
  refine ⟨⟨("see ").data, (" ok").data, by decide, by decide, by decide,
    ?_, ?_⟩, by decide, by decide, by decide⟩
  · intro c hc
    rw [show ((("see ").data).getLast? = some ' ') from by decide] at hc
    injection hc with h
    rw [← h]
    decide
  · intro c hc
    rw [show (((" ok").data).head? = some ' ') from by decide] at hc
    injection hc with h
    rw [← h]
    decide

/-- **C1, amended.**  For every decoded text containing no digit run of
length 4 to 8, extraction returns none; and for every decoded text
containing a standalone digit run whose length is 4, 6 or 8 (rather
than any length in `[4, 8]`), extraction returns a code that is itself
a standalone digit run of the text of length 4, 6 or 8. -/
theorem extractOTP_standalone_amended :
    (∀ t, noMidRun t → extractOTPText t = none) ∧
    (∀ t ds, standaloneRun t ds →
      (ds.length = 4 ∨ ds.length = 6 ∨ ds.length = 8) →
      ∃ c, extractOTPText t = some c ∧ standaloneRun t c ∧
        (c.length = 4 ∨ c.length = 6 ∨ c.length = 8)) :=
  ⟨fun _ h => extract_none_of_noMidRun h,
   fun _ _ hsr hk => extract_some_of_standalone hsr hk⟩

/-- Witness for `extractOTP_standalone_amended` at two concrete texts:
a digit-free text, and a text with a single standalone 4-digit run. -/
theorem extractOTP_standalone_amended_witness :
    extractOTPText (("hello!").data) = none ∧
    (∃ c, extractOTPText (("ab 1234 cd").data) = some c ∧
      standaloneRun (("ab 1234 cd").data) c ∧
      (c.length = 4 ∨ c.length = 6 ∨ c.length = 8)) := by
  constructor
  · apply extractOTP_standalone_amended.1
    intro pre ds post heq hne hdig _ _ _
    have hnod : ∀ c ∈ (("hello!").data), isDigitC c = false := by decide
    cases ds with
    | nil => exact hne rfl
    | cons d ds' =>
      have hd : d ∈ (("hello!").data) := by
        rw [heq]
        simp
      have ht := hdig d (List.mem_cons_self d ds')
      rw [hnod d hd] at ht
      cases ht
  · refine extractOTP_standalone_amended.2 _ (("1234").data)
      ⟨("ab ").data, (" cd").data, by decide, by decide, by decide, ?_, ?_⟩
      (by decide)
    · intro c hc
      rw [show ((("ab ").data).getLast? = some ' ') from by decide] at hc
      injection hc with h
      rw [← h]
      decide
    · intro c hc
      rw [show (((" cd").data).head? = some ' ') from by decide] at hc
      injection hc with h
      rw [← h]
      decide

/-- **C2.**  The first pattern of `OTP_PATTERNS` is the bare 6-digit
pattern, so whenever it has any match, `extractOTP` returns its first
match: a standalone 6-digit run, even if a phrase-anchored pattern also
matches earlier in the text (the returned code has length 6, hence is
never a phrase-anchored 4-digit value). -/
theorem extractOTP_pattern_order :
    ∀ t m ms, bareScan 6 none t = m :: ms →
      extractOTPText t = some m ∧ m.length = 6 ∧ standaloneRun t m := by
  intro t m ms h6
  obtain ⟨hsr, hlen⟩ := standalone_of_bareScan_mem (by omega)
    (h6 ▸ List.mem_cons_self m ms)
  refine ⟨?_, hlen, hsr⟩
  rw [extractOTPText, OTP_PATTERNS,
    extractFromPatterns_step_some (.bare 6)
      (firstValidCode_bare (by omega) (by omega) h6)]

/-- Witness for `extractOTP_pattern_order`: a text in which
`verification code: 1234` appears before the bare run `567890`, and
extraction returns `567890`. -/
theorem extractOTP_pattern_order_witness :
    extractOTPText (("verification code: 1234 then 567890").data) =
      some (("567890").data) ∧
    (("567890").data).length = 6 ∧
    standaloneRun (("verification code: 1234 then 567890").data)
      (("567890").data) :=
  extractOTP_pattern_order _ _ [] (by decide)

/-- **C8.**  Whenever `extractOTP` returns a code, the code consists
only of digits and its length lies in `[4, 8]`; this is enforced by the
final length filter on the digit-stripped match. -/
theorem extractOTP_code_shape :
    ∀ t c, extractOTPText t = some c →
      (∀ x ∈ c, isDigitC x = true) ∧ 4 ≤ c.length ∧ c.length ≤ 8 :=
  fun _ _ h => extractFromPatterns_some h

/-- Witness for `extractOTP_code_shape` at a concrete text. -/
theorem extractOTP_code_shape_witness :
    (∀ x ∈ (("482913").data), isDigitC x = true) ∧
      4 ≤ (("482913").data).length ∧ (("482913").data).length ≤ 8 :=
  extractOTP_code_shape (("Your code: 482913").data) (("482913").data)
    (by decide)

/-! ### Lemmas about the orchestrator scan loop -/

lemma getMessageDetailC_ok {env : MailEnv} {i : String}
    (h : httpOk (env.detailStatus i) = true) :
    getMessageDetailC env i = .ok (env.detailResponse i) := by
  simp [getMessageDetailC, h]

lemma getMessageDetailFx_ok {env : MailEnv} {i : String}
    (h : httpOk (env.detailStatus i) = true) :
    getMessageDetailFx env i = .ok (env.detailResponse i) := by
  simp [getMessageDetailFx, h]

lemma fetchLoop_hit (detail : String → Except String GmailMessageResponse)
    (ms1 : List GmailMessage) (m : GmailMessage) (ms2 : List GmailMessage)
    {c : String}
    (h1 : ∀ x ∈ ms1, ∃ d, detail x.id = .ok d ∧ extractOTP d = none)
    (h2 : ∃ d, detail m.id = .ok d ∧ extractOTP d = some c) :
    fetchLoop detail (ms1 ++ m :: ms2) = (.ok (some c), ms1.length + 1) := by
  induction ms1 with
  | nil =>
    obtain ⟨d, hd, he⟩ := h2
    simp [fetchLoop, hd, he]
  | cons x ms1' ih =>
    obtain ⟨d, hd, he⟩ := h1 x (List.mem_cons_self _ _)
    have hrec := ih (fun y hy => h1 y (List.mem_cons_of_mem _ hy))
    simp only [List.cons_append, fetchLoop, hd, he, hrec]
    simp [hrec]

lemma fetchLoop_none (detail : String → Except String GmailMessageResponse)
    {ms : List GmailMessage}
    (h : ∀ x ∈ ms, ∃ d, detail x.id = .ok d ∧ extractOTP d = none) :
    fetchLoop detail ms = (.ok none, ms.length) := by
  induction ms with
  | nil => rfl
  | cons x rest ih =>
    obtain ⟨d, hd, he⟩ := h x (List.mem_cons_self _ _)
    have hrec := ih (fun y hy => h y (List.mem_cons_of_mem _ hy))
    simp only [fetchLoop, hd, he, hrec]
    simp [hrec]

lemma fetchLoop_err (detail : String → Except String GmailMessageResponse)
    (ms1 : List GmailMessage) (m : GmailMessage) (ms2 : List GmailMessage)
    {e : String}
    (h1 : ∀ x ∈ ms1, ∃ d, detail x.id = .ok d ∧ extractOTP d = none)
    (h2 : detail m.id = .error e) :
    fetchLoop detail (ms1 ++ m :: ms2) = (.error e, ms1.length + 1) := by
  induction ms1 with
  | nil => simp [fetchLoop, h2]
  | cons x ms1' ih =>
    obtain ⟨d, hd, he⟩ := h1 x (List.mem_cons_self _ _)
    have hrec := ih (fun y hy => h1 y (List.mem_cons_of_mem _ hy))
    simp only [List.cons_append, fetchLoop, hd, he, hrec]
    simp [hrec]

lemma take5_ne_nil {env : MailEnv} {ms1 : List GmailMessage}
    {m : GmailMessage} {ms2 : List GmailMessage}
    (htake : env.searchMessages.take 5 = ms1 ++ m :: ms2) :
    env.searchMessages.isEmpty = false := by
  cases hmsgs : env.searchMessages with
  | nil =>
    rw [hmsgs] at htake
    have := congrArg List.length htake
    simp at this
    omega
  | cons a l => rfl

/-- **C3.**  The orchestrator algorithm, for both platform variants:
no credential fails with the authentication-required reason; an empty
search result fails naming the domain; otherwise the scan covers at
most the first 5 messages in order, stops at the first extraction hit
with exactly `k` body fetches when the `k`-th message is the first hit,
and fails with the no-OTP reason when none of the first 5 hits. -/
theorem fetchOTP_orchestration :
    (∀ env domain, env.token = none →
      fetchOTPForDomainC env domain =
        (⟨false, none, some ("Gmail authentication required")⟩, 0)) ∧
    (∀ env domain t, env.token = some t → httpOk env.searchStatus = true →
      env.searchMessages = [] →
      fetchOTPForDomainC env domain =
        (⟨false, none, some ("No recent emails found for " ++ domain)⟩, 0)) ∧
    (∀ env domain t m ms1 ms2 c, env.token = some t →
      httpOk env.searchStatus = true →
      env.searchMessages.take 5 = ms1 ++ m :: ms2 →
      (∀ x ∈ ms1, httpOk (env.detailStatus x.id) = true ∧
        extractOTP (env.detailResponse x.id) = none) →
      httpOk (env.detailStatus m.id) = true →
      extractOTP (env.detailResponse m.id) = some c →
      fetchOTPForDomainC env domain =
        (⟨true, some c, none⟩, ms1.length + 1)) ∧
    (∀ env domain t, env.token = some t → httpOk env.searchStatus = true →
      env.searchMessages ≠ [] →
      (∀ x ∈ env.searchMessages.take 5, httpOk (env.detailStatus x.id) = true ∧
        extractOTP (env.detailResponse x.id) = none) →
      fetchOTPForDomainC env domain =
        (⟨false, none, some ("No OTP found in recent emails")⟩,
          (env.searchMessages.take 5).length)) ∧
    (∀ env domain, env.token = none →
      fetchOTPForDomainFx env domain =
        (⟨false, none, some ("Gmail authentication required")⟩, 0, false)) ∧
    (∀ env domain t, env.token = some t → httpOk env.searchStatus = true →
      env.searchMessages = [] →
      fetchOTPForDomainFx env domain =
        (⟨false, none, some ("No recent emails found for " ++ domain)⟩,
          0, false)) ∧
    (∀ env domain t m ms1 ms2 c, env.token = some t →
      httpOk env.searchStatus = true →
      env.searchMessages.take 5 = ms1 ++ m :: ms2 →
      (∀ x ∈ ms1, httpOk (env.detailStatus x.id) = true ∧
        extractOTP (env.detailResponse x.id) = none) →
      httpOk (env.detailStatus m.id) = true →
      extractOTP (env.detailResponse m.id) = some c →
      fetchOTPForDomainFx env domain =
        (⟨true, some c, none⟩, ms1.length + 1, false)) ∧
    (∀ env domain t, env.token = some t → httpOk env.searchStatus = true →
      env.searchMessages ≠ [] →
      (∀ x ∈ env.searchMessages.take 5, httpOk (env.detailStatus x.id) = true ∧
        extractOTP (env.detailResponse x.id) = none) →
      fetchOTPForDomainFx env domain =
        (⟨false, none, some ("No OTP found in recent emails")⟩,
          (env.searchMessages.take 5).length, false)) := by
  refine ⟨?_, ?_, ?_, ?_, ?_, ?_, ?_, ?_⟩
  · intro env domain htok
    simp [fetchOTPForDomainC, htok]
  · intro env domain t htok hok hmsgs
    simp [fetchOTPForDomainC, htok, searchGmailMessagesC, hok, hmsgs]
  · intro env domain t m ms1 ms2 c htok hok htake hprev hmok hmex
    have hemp := take5_ne_nil htake
    have hloop := fetchLoop_hit (getMessageDetailC env) ms1 m ms2
      (fun x hx => ⟨env.detailResponse x.id,
        getMessageDetailC_ok (hprev x hx).1, (hprev x hx).2⟩)
      ⟨env.detailResponse m.id, getMessageDetailC_ok hmok, hmex⟩
    simp [fetchOTPForDomainC, htok, searchGmailMessagesC, hok, hemp,
      htake, hloop]
  · intro env domain t htok hok hne hall
    have hemp : env.searchMessages.isEmpty = false := by
      cases hmsgs : env.searchMessages with
      | nil => exact absurd hmsgs hne
      | cons a l => rfl
    have hloop := fetchLoop_none (getMessageDetailC env)
      (fun x hx => ⟨env.detailResponse x.id,
        getMessageDetailC_ok (hall x hx).1, (hall x hx).2⟩)
    simp [fetchOTPForDomainC, htok, searchGmailMessagesC, hok, hemp, hloop]
  · intro env domain htok
    simp [fetchOTPForDomainFx, htok]
  · intro env domain t htok hok hmsgs
    simp [fetchOTPForDomainFx, htok, searchGmailMessagesFx, hok, hmsgs]
  · intro env domain t m ms1 ms2 c htok hok htake hprev hmok hmex
    have hemp := take5_ne_nil htake
    have hloop := fetchLoop_hit (getMessageDetailFx env) ms1 m ms2
      (fun x hx => ⟨env.detailResponse x.id,
        getMessageDetailFx_ok (hprev x hx).1, (hprev x hx).2⟩)
      ⟨env.detailResponse m.id, getMessageDetailFx_ok hmok, hmex⟩
    simp [fetchOTPForDomainFx, htok, searchGmailMessagesFx, hok, hemp,
      htake, hloop]
  · intro env domain t htok hok hne hall
    have hemp : env.searchMessages.isEmpty = false := by
      cases hmsgs : env.searchMessages with
      | nil => exact absurd hmsgs hne
      | cons a l => rfl
    have hloop := fetchLoop_none (getMessageDetailFx env)
      (fun x hx => ⟨env.detailResponse x.id,
        getMessageDetailFx_ok (hall x hx).1, (hall x hx).2⟩)
    simp [fetchOTPForDomainFx, htok, searchGmailMessagesFx, hok, hemp, hloop]

/-- Witness for `fetchOTP_orchestration`: concrete runs of all four
branch shapes, in both variants; in the hit run only the third of five
messages contains a code, and exactly 3 body fetches occur. -/
theorem fetchOTP_orchestration_witness :
    fetchOTPForDomainC envNoTok ("example.com") =
      (⟨false, none, some ("Gmail authentication required")⟩, 0) ∧
    fetchOTPForDomainC envEmpty ("example.com") =
      (⟨false, none, some ("No recent emails found for example.com")⟩, 0) ∧
    fetchOTPForDomainC envHit ("example.com") =
      (⟨true, some ("482913"), none⟩, 3) ∧
    fetchOTPForDomainC envMiss ("example.com") =
      (⟨false, none, some ("No OTP found in recent emails")⟩, 2) ∧
    fetchOTPForDomainFx envNoTok ("example.com") =
      (⟨false, none, some ("Gmail authentication required")⟩, 0, false) ∧
    fetchOTPForDomainFx envEmpty ("example.com") =
      (⟨false, none, some ("No recent emails found for example.com")⟩,
        0, false) ∧
    fetchOTPForDomainFx envHit ("example.com") =
      (⟨true, some ("482913"), none⟩, 3, false) ∧
    fetchOTPForDomainFx envMiss ("example.com") =
      (⟨false, none, some ("No OTP found in recent emails")⟩, 2, false) := by
  obtain ⟨h1, h2, h3, h4, h5, h6, h7, h8⟩ := fetchOTP_orchestration
  refine ⟨h1 envNoTok _ rfl, ?_, ?_, ?_, h5 envNoTok _ rfl, ?_, ?_, ?_⟩
  · exact h2 envEmpty _ ("tok") rfl rfl rfl
  · have := h3 envHit ("example.com") ("tok")
      ⟨"m3", ""⟩ [⟨"m1", ""⟩, ⟨"m2", ""⟩] [⟨"m4", ""⟩, ⟨"m5", ""⟩] ("482913")
      rfl rfl rfl ?_ rfl (by decide)
    · exact this
    · intro x hx
      have hx' : x = (⟨"m1", ""⟩ : GmailMessage) ∨
          x = (⟨"m2", ""⟩ : GmailMessage) := by simpa using hx
      rcases hx' with rfl | rfl
      · exact ⟨rfl, by decide⟩
      · exact ⟨rfl, by decide⟩
  · have := h4 envMiss ("example.com") ("tok") rfl rfl (by decide) ?_
    · exact this
    · intro x hx
      have hx' : x = (⟨"m1", ""⟩ : GmailMessage) ∨
          x = (⟨"m2", ""⟩ : GmailMessage) := by simpa [envMiss] using hx
      rcases hx' with rfl | rfl
      · exact ⟨rfl, by decide⟩
      · exact ⟨rfl, by decide⟩
  · exact h6 envEmpty _ ("tok") rfl rfl rfl
  · have := h7 envHit ("example.com") ("tok")
      ⟨"m3", ""⟩ [⟨"m1", ""⟩, ⟨"m2", ""⟩] [⟨"m4", ""⟩, ⟨"m5", ""⟩] ("482913")
      rfl rfl rfl ?_ rfl (by decide)
    · exact this
    · intro x hx
      have hx' : x = (⟨"m1", ""⟩ : GmailMessage) ∨
          x = (⟨"m2", ""⟩ : GmailMessage) := by simpa using hx
      rcases hx' with rfl | rfl
      · exact ⟨rfl, by decide⟩
      · exact ⟨rfl, by decide⟩
  · have := h8 envMiss ("example.com") ("tok") rfl rfl (by decide) ?_
    · exact this
    · intro x hx
      have hx' : x = (⟨"m1", ""⟩ : GmailMessage) ∨
          x = (⟨"m2", ""⟩ : GmailMessage) := by simpa [envMiss] using hx
      rcases hx' with rfl | rfl
      · exact ⟨rfl, by decide⟩
      · exact ⟨rfl, by decide⟩

/-! ### The 401 handling of the two variants -/

set_option maxHeartbeats 1000000 in
set_option maxRecDepth 10000 in
lemma gmailErr_distinct :
    ∀ s : Nat, s < 1000 → s ≠ 401 →
      strIncludes ("Gmail API error: " ++ toString s) ("401") = false ∧
      ("Gmail API error: " ++ toString s) ≠
        ("Authentication expired - please try again") := by
  decide

/-- **C4, counterexample.**  In the Chrome variant
(`background.ts` lines 101-118), a 401 answer to the search request
produces the failure reason `Gmail API error: 401` — exactly the
generic non-2xx format, the same shape as a 500 — and no
credential-purge branch exists in that variant at all, so a 401 run's
outcome is not a distinct authentication-expired condition. -/
theorem fetchOTP_auth_expired_counterexample :
    fetchOTPForDomainC env401 ("example.com") =
      (⟨false, none, some ("Gmail API error: " ++ toString 401)⟩, 0) ∧
    fetchOTPForDomainC env500 ("example.com") =
      (⟨false, none, some ("Gmail API error: " ++ toString 500)⟩, 0) ∧
    ("Gmail API error: " ++ toString 401) ≠
      ("Authentication expired - please try again") := by
  refine ⟨by rfl, by rfl, by decide⟩

/-- **C4, amended.**  In the Firefox variant, a 401 answer to the
search or to a body fetch makes the run end in the
authentication-expired condition with the cached credential purged,
while every other non-2xx status yields the generic
`Gmail API error: ⟨status⟩` reason without a purge, and that reason is
distinct from the authentication-expired one. -/
theorem fetchOTP_auth_expired_firefox :
    (∀ env domain t, env.token = some t → env.searchStatus = 401 →
      fetchOTPForDomainFx env domain =
        (⟨false, none, some ("Authentication expired - please try again")⟩,
          0, true)) ∧
    (∀ env domain t m ms1 ms2, env.token = some t →
      httpOk env.searchStatus = true →
      env.searchMessages.take 5 = ms1 ++ m :: ms2 →
      (∀ x ∈ ms1, httpOk (env.detailStatus x.id) = true ∧
        extractOTP (env.detailResponse x.id) = none) →
      env.detailStatus m.id = 401 →
      fetchOTPForDomainFx env domain =
        (⟨false, none, some ("Authentication expired - please try again")⟩,
          ms1.length + 1, true)) ∧
    (∀ env domain t, env.token = some t →
      httpOk env.searchStatus = false → env.searchStatus ≠ 401 →
      env.searchStatus < 1000 →
      fetchOTPForDomainFx env domain =
        (⟨false, none,
          some ("Gmail API error: " ++ toString env.searchStatus)⟩,
          0, false) ∧
      ("Gmail API error: " ++ toString env.searchStatus) ≠
        ("Authentication expired - please try again")) := by
  refine ⟨?_, ?_, ?_⟩
  · intro env domain t htok h401
    have hok : httpOk 401 = false := by decide
    have hinc : strIncludes ("401 Unauthorized - token expired") ("401") =
        true := by decide
    simp [fetchOTPForDomainFx, htok, searchGmailMessagesFx, hok, h401, hinc]
  · intro env domain t m ms1 ms2 htok hok htake hprev h401
    have hemp := take5_ne_nil htake
    have hdet : getMessageDetailFx env m.id =
        .error ("401 Unauthorized - token expired") := by
      have hno : httpOk 401 = false := by decide
      simp [getMessageDetailFx, hno, h401]
    have hloop := fetchLoop_err (getMessageDetailFx env) ms1 m ms2
      (fun x hx => ⟨env.detailResponse x.id,
        getMessageDetailFx_ok (hprev x hx).1, (hprev x hx).2⟩) hdet
    have hinc : strIncludes ("401 Unauthorized - token expired") ("401") =
        true := by decide
    simp [fetchOTPForDomainFx, htok, searchGmailMessagesFx, hok, hemp,
      htake, hloop, hinc]
  · intro env domain t htok hnok hne hlt
    obtain ⟨hinc, hdist⟩ := gmailErr_distinct env.searchStatus hlt hne
    refine ⟨?_, hdist⟩
    simp [fetchOTPForDomainFx, htok, searchGmailMessagesFx, hnok, hne, hinc]

/-- Witness for `fetchOTP_auth_expired_firefox`: a 401 on search, a 401
on the only body fetch, and a 500 on search. -/
theorem fetchOTP_auth_expired_firefox_witness :
    fetchOTPForDomainFx env401 ("example.com") =
      (⟨false, none, some ("Authentication expired - please try again")⟩,
        0, true) ∧
    fetchOTPForDomainFx env401Detail ("example.com") =
      (⟨false, none, some ("Authentication expired - please try again")⟩,
        1, true) ∧
    (fetchOTPForDomainFx env500 ("example.com") =
      (⟨false, none, some ("Gmail API error: " ++ toString 500)⟩,
        0, false) ∧
     ("Gmail API error: " ++ toString 500) ≠
       ("Authentication expired - please try again")) := by
  obtain ⟨h1, h2, h3⟩ := fetchOTP_auth_expired_firefox
  refine ⟨h1 env401 _ ("tok") rfl rfl, ?_,
    h3 env500 _ ("tok") rfl rfl (by decide) (by decide)⟩
  exact h2 env401Detail ("example.com") ("tok") ⟨"m1", ""⟩ [] [] rfl rfl rfl
    (by intro x hx; cases hx) rfl

/-! ### The delivery coordinator invariants -/

lemma processOTPRequest_records (menv : MailEnv) (env : DeliveryEnv)
    (domain : String) (autoFill : Bool) (tabId : Option Nat)
    (hs : env.storageFails = false) (hb : env.badgeFails = false) :
    (processOTPRequest menv env domain autoFill tabId).stores.length = 1 ∧
    (processOTPRequest menv env domain autoFill tabId).badges.length = 1 := by
  unfold processOTPRequest
  split_ifs <;>
    simp [Effects.seq, showPopupWithResult, copyToClipboard, hs, hb,
      apply_ite, apply_ite List.length]

/-- **C5.**  Every retrieval request ends with exactly one write of the
single-slot outcome record and exactly one badge update, in every
branch — success with channel delivery, success clipboard-only,
failure, or the exception path entered when `port.postMessage` throws —
and independently of whether the clipboard write succeeds. -/
theorem delivery_always_records_once :
    ∀ menv env domain autoFill tabId,
      env.storageFails = false → env.badgeFails = false →
      (processOTPRequest menv env domain autoFill tabId).stores.length = 1 ∧
      (processOTPRequest menv env domain autoFill tabId).badges.length = 1 :=
  fun menv env domain autoFill tabId hs hb =>
    processOTPRequest_records menv env domain autoFill tabId hs hb

/-- Witness for `delivery_always_records_once`: a successful run with
auto-fill requested, no live port and a failing clipboard injection
still records the outcome once and updates the badge once. -/
theorem delivery_always_records_once_witness :
    (processOTPRequest envHit envDeliverNoPort ("example.com") true
      (some 7)).stores.length = 1 ∧
    (processOTPRequest envHit envDeliverNoPort ("example.com") true
      (some 7)).badges.length = 1 :=
  delivery_always_records_once envHit envDeliverNoPort ("example.com") true
    (some 7) rfl rfl

/-- **C6, counterexample.**  The Chrome listener
(`background.ts` lines 256-261) answers a `fetchOTP` message through
`sendResponse` with the completed run's full result: the
acknowledgment carries the extracted code itself, so the handling is
not fire-and-forget and the result does reach the caller via the
message response. -/
theorem chrome_fetch_response_carries_result :
    chromeOnMessage envHit ⟨"example.com", false⟩ =
      some ⟨true, some ("482913"), none⟩ := by rfl

/-- **C6, amended.**  In the Firefox background, the `fetchOTP`
listener branch returns no response value at all, that value is
independent of every environment (hence of the run's completion or
outcome), and the result reaches the caller only through the persisted
record and the badge, which are written exactly once per request. -/
theorem firefox_fetch_fire_and_forget :
    (∀ menv env injectOk domain ts autoFill tabId,
      (firefoxOnMessage menv env injectOk
        (.fetchOTP domain ts autoFill tabId)).1 = none) ∧
    (∀ menv env injectOk menv2 env2 injectOk2 domain ts autoFill tabId
        domain2 ts2 autoFill2 tabId2,
      (firefoxOnMessage menv env injectOk
        (.fetchOTP domain ts autoFill tabId)).1 =
      (firefoxOnMessage menv2 env2 injectOk2
        (.fetchOTP domain2 ts2 autoFill2 tabId2)).1) ∧
    (∀ menv env injectOk domain ts autoFill tabId,
      env.storageFails = false → env.badgeFails = false →
      ((firefoxOnMessage menv env injectOk
        (.fetchOTP domain ts autoFill tabId)).2.stores.length = 1 ∧
       (firefoxOnMessage menv env injectOk
        (.fetchOTP domain ts autoFill tabId)).2.badges.length = 1)) := by
  refine ⟨?_, ?_, ?_⟩
  · intro menv env injectOk domain ts autoFill tabId
    rfl
  · intro menv env injectOk menv2 env2 injectOk2 domain ts autoFill tabId
      domain2 ts2 autoFill2 tabId2
    rfl
  · intro menv env injectOk domain ts autoFill tabId hs hb
    exact processOTPRequest_records menv env domain autoFill tabId hs hb

/-- Witness for `firefox_fetch_fire_and_forget` at a concrete
successful run. -/
theorem firefox_fetch_fire_and_forget_witness :
    (firefoxOnMessage envHit envDeliver true
      (.fetchOTP ("example.com") 0 false none)).1 = none ∧
    ((firefoxOnMessage envHit envDeliver true
      (.fetchOTP ("example.com") 0 false none)).2.stores.length = 1 ∧
     (firefoxOnMessage envHit envDeliver true
      (.fetchOTP ("example.com") 0 false none)).2.badges.length = 1) :=
  ⟨firefox_fetch_fire_and_forget.1 envHit envDeliver true ("example.com")
      0 false none,
   firefox_fetch_fire_and_forget.2.2 envHit envDeliver true ("example.com")
      0 false none rfl rfl⟩

/-- **C7.**  For a successful retrieval with auto-fill requested: with
a live bridge port on the originating tab the code is posted over the
port and additionally written to the clipboard, and a success outcome
is recorded; with no live port, delivery degrades to clipboard-only
(no port message) and the run still records the same success outcome,
with no error raised. -/
theorem delivery_autofill_fallback :
    (∀ menv env domain tabId t c,
      (fetchOTPForDomainFx menv domain).1 = ⟨true, some c, none⟩ →
      c ≠ "" → tabId = some t → t ≠ 0 →
      env.hasPort t = true → env.portThrows = false →
      env.storageFails = false → env.badgeFails = false →
      processOTPRequest menv env domain true tabId =
        ⟨[⟨true, some c, domain,
            "OTP: " ++ c ++ " (auto-filled & copied)", env.now⟩],
          [true], [env.clipboardOk], [(t, c)]⟩) ∧
    (∀ menv env domain tabId t c,
      (fetchOTPForDomainFx menv domain).1 = ⟨true, some c, none⟩ →
      c ≠ "" → tabId = some t → t ≠ 0 →
      env.hasPort t = false →
      env.storageFails = false → env.badgeFails = false →
      processOTPRequest menv env domain true tabId =
        ⟨[⟨true, some c, domain,
            "OTP: " ++ c ++ " (copied to clipboard - auto-fill failed)",
            env.now⟩],
          [true], [env.clipboardOk], []⟩) := by
  constructor
  · intro menv env domain tabId t c hres hc htab ht hport hthrow hs hb
    subst htab
    simp [processOTPRequest, hres, truthyStr, truthyTab, hc, ht, hport,
      hthrow, Effects.seq, copyToClipboard, showPopupWithResult, hs, hb]
  · intro menv env domain tabId t c hres hc htab ht hport hs hb
    subst htab
    simp [processOTPRequest, hres, truthyStr, truthyTab, hc, ht, hport,
      Effects.seq, copyToClipboard, showPopupWithResult, hs, hb]

/-- Witness for `delivery_autofill_fallback`: the same successful run
delivered once with a live port on tab 7 and once with no port. -/
theorem delivery_autofill_fallback_witness :
    processOTPRequest envHit envDeliver ("example.com") true (some 7) =
      ⟨[⟨true, some ("482913"), "example.com",
          "OTP: " ++ "482913" ++ " (auto-filled & copied)", 0⟩],
        [true], [true], [(7, "482913")]⟩ ∧
    processOTPRequest envHit envDeliverNoPort ("example.com") true (some 7) =
      ⟨[⟨true, some ("482913"), "example.com",
          "OTP: " ++ "482913" ++ " (copied to clipboard - auto-fill failed)",
          0⟩],
        [true], [false], []⟩ :=
  ⟨delivery_autofill_fallback.1 envHit envDeliver ("example.com") (some 7) 7
      ("482913") rfl (by decide) rfl (by decide) rfl rfl rfl rfl,
   delivery_autofill_fallback.2 envHit envDeliverNoPort ("example.com")
      (some 7) 7 ("482913") rfl (by decide) rfl (by decide) rfl rfl rfl⟩

/-! ### The form-fill exclusion and the single-character mode -/

lemma isValid_not_banned {el : InputEl} (h : isValidOTPInput el = true) :
    attrsContainBanned el = false := by
  rw [isValidOTPInput] at h
  by_cases hv : (el.disabled || el.readOnly || el.displayNone) = true
  · rw [if_pos hv] at h
    cases h
  · rw [if_neg hv] at h
    simpa using h

lemma findOTPInputsRaw_valid {dom : List InputEl}
    {cand : OTPInputCandidate} (h : cand ∈ findOTPInputsRaw dom) :
    isValidOTPInput cand.element = true := by
  rw [findOTPInputsRaw] at h
  obtain ⟨sel, _, hmem⟩ := List.mem_flatMap.1 h
  obtain ⟨el, hel, heq⟩ := List.mem_map.1 hmem
  subst heq
  exact List.of_mem_filter hel

lemma removeDuplicates_subset {seen : List InputEl}
    {cs : List OTPInputCandidate} {c : OTPInputCandidate}
    (h : c ∈ removeDuplicates seen cs) : c ∈ cs := by
  induction cs generalizing seen with
  | nil => simp [removeDuplicates] at h
  | cons x rest ih =>
    rw [removeDuplicates] at h
    by_cases hx : seen.contains x.element
    · rw [if_pos hx] at h
      exact List.mem_cons_of_mem _ (ih h)
    · rw [if_neg hx] at h
      rcases List.mem_cons.1 h with rfl | h'
      · exact List.mem_cons_self _ _
      · exact List.mem_cons_of_mem _ (ih h')

lemma fillSingle_filled_valid {cont : List InputEl} {otpCode : List Char}
    {el : InputEl} {d : Char}
    (h : (el, d) ∈ (fillSingleDigitInputs cont otpCode).2) :
    isValidOTPInput el = true := by
  simp only [fillSingleDigitInputs] at h
  split at h
  · cases h
  · have hmem := (List.of_mem_zip h).1
    have hmem2 : el ∈ (cont.filter (fun i =>
        i.maxLengthAttr == some 1)).filter isValidOTPInput :=
      (List.Perm.mem_iff (List.perm_insertionSort visualBefore _)).1 hmem
    exact List.of_mem_filter hmem2

lemma fillOTPLoop_valid {dom : List InputEl} {otpCode : List Char}
    {cs : List OTPInputCandidate} {el : InputEl}
    (hall : ∀ cand ∈ cs, isValidOTPInput cand.element = true)
    (h : el ∈ (fillOTPLoop dom otpCode cs).2) :
    isValidOTPInput el = true := by
  induction cs with
  | nil => simp [fillOTPLoop] at h
  | cons cand rest ih =>
    rw [fillOTPLoop] at h
    cases htype : cand.type with
    | single =>
      rw [htype] at h
      simp only at h
      split at h
      · obtain ⟨⟨el', d⟩, hm, heq⟩ := List.mem_map.1 h
        subst heq
        exact fillSingle_filled_valid hm
      · exact ih (fun y hy => hall y (List.mem_cons_of_mem _ hy)) h
    | multi =>
      rw [htype] at h
      simp only [List.mem_singleton] at h
      subst h
      exact hall cand (List.mem_cons_self _ _)

/-- **C9, counterexample.**  The bridge fill (`otp-bridge.ts`
`fillOTPCode`) applies no attribute exclusion: on a page whose only
input is a visible, enabled text input named `username`, the fill
selects exactly that input — an element whose name contains
`username` and whose attributes the auto-fill heuristic would ban. -/
theorem formfill_excludes_counterexample :
    bridgeFillTarget [usernameInput] = some usernameInput ∧
    strIncludes (inputAttributes usernameInput) ("username") = true ∧
    attrsContainBanned usernameInput = true :=
  ⟨rfl, by decide, by decide⟩

/-- **C9, amended.**  The confidence-scored auto-fill heuristic
(`otp-autofill.ts` `fillOTP`) never fills an input whose
name/id/class/placeholder/test-id attributes contain `email`,
`password`, `username` or `phone`: every filled element passed
`isValidOTPInput`, which rejects such inputs.  (The bridge's own
`fillOTPCode` has no such exclusion, per the counterexample.) -/
theorem formfill_excludes_amended :
    ∀ dom otpCode el, el ∈ (fillOTP dom otpCode).2 →
      isValidOTPInput el = true ∧ attrsContainBanned el = false := by
  intro dom otpCode el h
  have hall : ∀ cand ∈ sortByConfidence (removeDuplicates []
      (findOTPInputsRaw dom)), isValidOTPInput cand.element = true := by
    intro cand hc
    have hc2 : cand ∈ removeDuplicates [] (findOTPInputsRaw dom) :=
      (List.Perm.mem_iff (List.perm_insertionSort confGE _)).1 hc
    exact findOTPInputsRaw_valid (removeDuplicates_subset hc2)
  have hv := fillOTPLoop_valid hall h
  exact ⟨hv, isValid_not_banned hv⟩

/-- Witness for `formfill_excludes_amended`: on a page holding a
username input and a semantic one-time-code input, the filled element
is the code input, which is valid and not banned. -/
theorem formfill_excludes_amended_witness :
    isValidOTPInput otpBoxInput = true ∧
    attrsContainBanned otpBoxInput = false :=
  formfill_excludes_amended [usernameInput, otpBoxInput]
    (("123456").data) otpBoxInput (by decide)

lemma map_snd_zip_eq_take :
    ∀ (l1 : List InputEl) (l2 : List Char), l1.length ≤ l2.length →
      (l1.zip l2).map Prod.snd = l2.take l1.length
  | [], l2, _ => by simp
  | a :: l1, [], h => by simp at h
  | a :: l1, b :: l2, h => by
    simp only [List.zip_cons_cons, List.map_cons, List.length_cons,
      List.take_succ_cons]
    rw [map_snd_zip_eq_take l1 l2 (by simpa using h)]

/-- **C10.**  In single-character mode, when the container holds
between 1 and `otpCode.length` valid length-1 boxes, the fill
succeeds, writes one digit per box in visual order — the boxes in
top-to-bottom, left-to-right order receive exactly the first
`count` digits of the code — and the digits beyond the box count are
silently discarded rather than causing a rejection. -/
theorem singleDigit_fill_truncates :
    ∀ cont otpCode valid,
      valid = sortVisually ((cont.filter (fun i =>
        i.maxLengthAttr == some 1)).filter isValidOTPInput) →
      1 ≤ valid.length → valid.length ≤ otpCode.length →
      (fillSingleDigitInputs cont otpCode).1 = true ∧
      (fillSingleDigitInputs cont otpCode).2.map Prod.fst = valid ∧
      (fillSingleDigitInputs cont otpCode).2.map Prod.snd =
        otpCode.take valid.length ∧
      valid.Perm ((cont.filter (fun i => i.maxLengthAttr == some 1)).filter
        isValidOTPInput) ∧
      List.Sorted visualBefore valid := by
  intro cont otpCode valid hval h1 h2
  have hmain : fillSingleDigitInputs cont otpCode =
      (true, valid.zip otpCode) := by
    simp only [fillSingleDigitInputs]
    rw [← hval, if_neg]
    intro hcon
    rcases hcon with hcon | hcon
    · omega
    · omega
  refine ⟨by rw [hmain], ?_, ?_, ?_, ?_⟩
  · rw [hmain]
    exact List.map_fst_zip valid otpCode h2
  · rw [hmain]
    exact map_snd_zip_eq_take valid otpCode h2
  · rw [hval]
    exact List.perm_insertionSort visualBefore _
  · rw [hval]
    exact List.sorted_insertionSort visualBefore _

/-- Witness for `singleDigit_fill_truncates`: four one-character boxes
listed out of visual order, a six-digit code; the fill succeeds, the
boxes in left-to-right order receive `1 2 3 4`, and the digits `5 6`
are discarded. -/
theorem singleDigit_fill_truncates_witness :
    (fillSingleDigitInputs [digitBox 3 30, digitBox 1 10, digitBox 0 0,
      digitBox 2 20] (("123456").data)).1 = true ∧
    (fillSingleDigitInputs [digitBox 3 30, digitBox 1 10, digitBox 0 0,
      digitBox 2 20] (("123456").data)).2.map Prod.fst =
      [digitBox 0 0, digitBox 1 10, digitBox 2 20, digitBox 3 30] ∧
    (fillSingleDigitInputs [digitBox 3 30, digitBox 1 10, digitBox 0 0,
      digitBox 2 20] (("123456").data)).2.map Prod.snd =
      (("123456").data).take 4 ∧
    List.Perm [digitBox 0 0, digitBox 1 10, digitBox 2 20, digitBox 3 30]
      (([digitBox 3 30, digitBox 1 10, digitBox 0 0,
        digitBox 2 20].filter (fun i => i.maxLengthAttr == some 1)).filter
        isValidOTPInput) ∧
    List.Sorted visualBefore
      [digitBox 0 0, digitBox 1 10, digitBox 2 20, digitBox 3 30] :=
  singleDigit_fill_truncates
    [digitBox 3 30, digitBox 1 10, digitBox 0 0, digitBox 2 20]
    (("123456").data)
    [digitBox 0 0, digitBox 1 10, digitBox 2 20, digitBox 3 30]
    (by decide) (by decide) (by decide)

end GrabOtp
